import Mathlib

/-! NotReddit chat page (`src/pages/chat/[uid].js`)

A shallow embedding of the chat view: room identity and bootstrap, the
message subscription with its decryption step, the send path with its image
upload, attachment selection, picked media, typing presence with its timers,
the call handlers with the incoming-call observer, the rendering of a message
bubble, and the handlers together as one transition system on the view state.

JavaScript strings are sequences of UTF-16 code units; they are modelled as
lists of code units so that the default `Array.prototype.sort` order (code
unit by code unit) is the one of the language.
-/

namespace NotReddit

/-- A JavaScript string: its UTF-16 code units. -/
abbrev JsString := List Nat

/-- Code units of an ASCII literal of the source. -/
def lit (s : String) : JsString := s.toList.map Char.toNat

/-! ## Room identity: `[user.uid, uid].sort().join('_')` -/

/-- String `<` of the language: code-unit-wise, a proper prefix is smaller. -/
def strLt : JsString → JsString → Bool
  | [], [] => false
  | [], _ :: _ => true
  | _ :: _, [] => false
  | x :: xs, y :: ys => if x < y then true else if y < x then false else strLt xs ys

/-- The comparison `Array.prototype.sort` uses when no comparator is given:
negative, zero or positive. -/
def sortCompare (x y : JsString) : Int :=
  if strLt x y then -1 else if strLt y x then 1 else 0

/-- Stable insertion of `x` in front of a sorted list. -/
def sortInsert (x : JsString) : List JsString → List JsString
  | [] => [x]
  | y :: ys => if sortCompare x y ≤ 0 then x :: y :: ys else y :: sortInsert x ys

/-- The method `Array.prototype.sort()` without a comparator, on an array of strings:
a stable sort by `sortCompare`. -/
def jsSort (xs : List JsString) : List JsString :=
  xs.foldr sortInsert []

/-- The method `Array.prototype.join(sep)` on an array of strings. -/
def jsJoin (sep : JsString) : List JsString → JsString
  | [] => []
  | [x] => x
  | x :: y :: rest => x ++ sep ++ jsJoin sep (y :: rest)

/-- Line 44: `const chatRoomId = [user.uid, uid].sort().join('_')`, with
`localUid = user.uid` and `remoteUid = uid`. -/
def chatRoomId (localUid remoteUid : JsString) : JsString :=
  jsJoin (lit "_") (jsSort [localUid, remoteUid])

/-! ## Errors and the cipher -/

/-- An `Error` object of the language, reduced to its message. -/
structure JsError where
  message : JsString
deriving DecidableEq, Repr

/-- A `try` block with its `catch` handler. -/
def jsTry {α : Type} (body : Except JsError α) (handler : JsError → Except JsError α) :
    Except JsError α :=
  match body with
  | .ok a => .ok a
  | .error e => handler e

/-- The operator `a || d` on an optional string: `undefined`, `null` and `''`
are falsy. -/
def jsOr (a : Option JsString) (d : JsString) : JsString :=
  match a with
  | some s => if s = [] then d else s
  | none => d

/-- The two `CryptoJS.AES` calls of the page. The library is not part of the
repository, so it is a parameter of the model.
`encrypt salt s k` is `CryptoJS.AES.encrypt(s, k).toString()` (the library
draws a random salt, passed here explicitly) and `decrypt c k` is
`CryptoJS.AES.decrypt(c, k).toString(CryptoJS.enc.Utf8)`. Either may throw. -/
structure Cipher where
  encrypt : Nat → JsString → JsString → Except JsError JsString
  decrypt : JsString → JsString → Except JsError JsString

/-- The contract of a cipher: whatever `encrypt` returns is a non-empty string
that `decrypt` maps back to the plaintext under the same key. -/
def Cipher.RoundTrip (C : Cipher) : Prop :=
  ∀ salt s k c, C.encrypt salt s k = .ok c → c ≠ [] ∧ C.decrypt c k = .ok s

/-! ## Documents and view state -/

/-- Data of `chats/{roomId}/messages/{msgId}`. `createdAt` is `none` while the
server timestamp is still pending. -/
structure MessageData where
  text : Option JsString
  createdAt : Option Nat
  uid : JsString
  photoURL : Option JsString
  displayName : Option JsString
  imageUrl : Option JsString
  mediaType : Option JsString
  mediaUrl : Option JsString
  mediaWidth : Option Nat
  mediaHeight : Option Nat
deriving DecidableEq, Repr

/-- A document of the messages snapshot: `doc.id` and `doc.data()`. -/
structure MessageDoc where
  id : JsString
  data : MessageData
deriving DecidableEq, Repr

/-- An element of `messagesArray` (lines 80-85):
`{ id: doc.id, ...data, text: decryptedMessage, timestamp: data.createdAt?.toDate() }`.
`data` holds the spread fields; its `text` is shadowed by the later `text` key. -/
structure ViewMessage where
  id : JsString
  data : MessageData
  text : JsString
  timestamp : Option Nat
deriving DecidableEq, Repr

/-- A `File` of the file input. -/
structure FileObj where
  name : JsString
  type : JsString
  size : Nat
deriving DecidableEq, Repr

/-- The signed-in user (`user.uid`, `user.photoURL`, `user.displayName`). -/
structure User where
  uid : JsString
  photoURL : Option JsString
  displayName : Option JsString
deriving DecidableEq, Repr

/-- The object `sendMessage` passes to `addDoc` (lines 245-252);
`createdAt: serverTimestamp()` is resolved by the store. `imageUrl` is `none`
when `data.links[0]` is `undefined`. -/
structure TextMessage where
  text : JsString
  uid : JsString
  photoURL : Option JsString
  displayName : Option JsString
  imageUrl : Option JsString
deriving DecidableEq, Repr

/-- The stored document of a written `TextMessage`, once the store has
resolved `createdAt`. -/
def TextMessage.stored (p : TextMessage) (createdAt : Option Nat) : MessageData :=
  { text := some p.text, createdAt := createdAt, uid := p.uid, photoURL := p.photoURL,
    displayName := p.displayName, imageUrl := p.imageUrl, mediaType := none,
    mediaUrl := none, mediaWidth := none, mediaHeight := none }

/-- Data of `calls/{callId}`. -/
structure CallData where
  participants : List JsString
  status : JsString
  createdBy : JsString
  endedAt : Option Nat
deriving DecidableEq, Repr

/-- The `change.type` of a document change. -/
inductive ChangeType where
  | added
  | modified
  | removed
deriving DecidableEq, Repr

/-- An element of `snapshot.docChanges()` of the calls collection. -/
structure DocChange where
  type : ChangeType
  id : JsString
  data : CallData
deriving DecidableEq, Repr

/-- The object given to `setIncomingCall` (lines 115-118):
`{ id: change.doc.id, ...call }`. -/
structure IncomingCall where
  id : JsString
  participants : List JsString
  status : JsString
  createdBy : JsString
  endedAt : Option Nat
deriving DecidableEq, Repr

/-- The value of the `activeCall` cell: the object `initiateCall` builds
(lines 268-271) or the incoming call `handleAcceptCall` moves there. -/
inductive ActiveCall where
  | outgoing (id : JsString) (participants : List JsString)
  | incoming (call : IncomingCall)
deriving DecidableEq, Repr

/-- Data of `chats/{roomId}`. -/
structure RoomData where
  participants : List JsString
  createdAt : Option Nat
  lastMessage : Option JsString
  typing : Option JsString
deriving DecidableEq, Repr

/-- The object `MediaPicker` hands to `onSelect` (`MediaPicker.js`, lines 91-96). -/
structure Media where
  type : JsString
  url : JsString
  width : Nat
  height : Nat
deriving DecidableEq, Repr

/-- The object `handleMediaSelect` passes to `addDoc` (lines 303-312);
`createdAt: serverTimestamp()` is resolved by the store. -/
structure MediaMessage where
  uid : JsString
  photoURL : Option JsString
  displayName : Option JsString
  mediaType : JsString
  mediaUrl : JsString
  mediaWidth : Nat
  mediaHeight : Nat
deriving DecidableEq, Repr

/-- The stored document of a written `MediaMessage`. -/
def MediaMessage.stored (p : MediaMessage) (createdAt : Option Nat) : MessageData :=
  { text := none, createdAt := createdAt, uid := p.uid, photoURL := p.photoURL,
    displayName := p.displayName, imageUrl := none, mediaType := some p.mediaType,
    mediaUrl := some p.mediaUrl, mediaWidth := some p.mediaWidth,
    mediaHeight := some p.mediaHeight }

/-- The `useState` cells of `ChatRoom` the modelled handlers read or write,
with their initial values. `recipient` holds the uid of the loaded profile. -/
structure ChatState where
  messages : List ViewMessage := []
  formValue : JsString := []
  chatId : JsString := []
  file : Option FileObj := none
  incomingCall : Option IncomingCall := none
  uploading : Bool := false
  isTyping : Bool := false
  recipient : Option JsString := none
  activeCall : Option ActiveCall := none
deriving DecidableEq, Repr

/-- What a handler does to the outside, in program order. -/
inductive Effect where
  /-- The call `fetch('/api/upload', ...)` with method POST and the form data as body. -/
  | fetchUpload (file : FileObj)
  /-- The call `addDoc` on the messages collection of room `chatId`. -/
  | addMessage (chatId : JsString) (payload : TextMessage)
  | alert (msg : JsString)
  | consoleError (label : JsString)
  | scrollIntoView
  /-- The call `updateDoc(doc(db, 'calls', id), { status, endedAt })`. -/
  | updateCall (id : JsString) (status : JsString) (endedAt : Nat)
  /-- The call `addDoc` of `handleMediaSelect` on the messages collection of room `chatId`. -/
  | addMedia (chatId : JsString) (payload : MediaMessage)
deriving DecidableEq, Repr

/-! ## The message subscription (lines 64-93) -/

/-- The fixed text of line 76. -/
def placeholder : JsString := lit "Message cannot be decrypted"

/-- Lines 68-78: `decryptedMessage` for one document. The decryption runs only
for a truthy `data.text`, inside `try`; the handler assigns the placeholder. -/
def decryptText (C : Cipher) (secretKey : JsString) (data : MessageData) :
    Except JsError JsString :=
  match data.text with
  | some c =>
    if c ≠ [] then jsTry (C.decrypt c secretKey) (fun _ => .ok placeholder)
    else .ok []
  | none => .ok []

/-- The body of `snapshot.forEach` (lines 66-86): push one element. -/
def pushMessage (C : Cipher) (secretKey : JsString)
    (acc : Except JsError (List ViewMessage)) (d : MessageDoc) :
    Except JsError (List ViewMessage) :=
  match acc with
  | .error e => .error e
  | .ok arr =>
    match decryptText C secretKey d.data with
    | .error e => .error e
    | .ok t =>
      .ok (arr ++ [{ id := d.id, data := d.data, text := t, timestamp := d.data.createdAt }])

/-- Lines 65-86: `messagesArray` after the loop over the snapshot. -/
def snapshotMessages (C : Cipher) (secretKey : JsString) (docs : List MessageDoc) :
    Except JsError (List ViewMessage) :=
  docs.foldl (pushMessage C secretKey) (.ok [])

/-- The `onSnapshot` callback of the messages query: `setMessages(messagesArray)`. -/
def onMessagesSnapshot (C : Cipher) (secretKey : JsString) (st : ChatState)
    (docs : List MessageDoc) : Except JsError ChatState :=
  match snapshotMessages C secretKey docs with
  | .ok arr => .ok { st with messages := arr }
  | .error e => .error e

/-- The element pushed for one document once the `try`/`catch` of lines
70-78 has run: the decrypted text, the placeholder after a throw, or `''` when
`data.text` is falsy. -/
def viewMessage (C : Cipher) (secretKey : JsString) (d : MessageDoc) : ViewMessage :=
  { id := d.id
    data := d.data
    text :=
      match d.data.text with
      | some c =>
        if c ≠ [] then
          match C.decrypt c secretKey with
          | .ok s => s
          | .error _ => placeholder
        else []
      | none => []
    timestamp := d.data.createdAt }

/-! ## The incoming-call observer (lines 107-122) -/

/-- The body of `docChanges().forEach`: the argument of `setIncomingCall`
when it is called for this change. -/
def incomingCallOf (uid : JsString) (change : DocChange) : Option IncomingCall :=
  if change.type = .added then
    let call := change.data
    if call.participants.contains uid && call.status == lit "pending"
        && call.createdBy != uid then
      some { id := change.id, participants := call.participants, status := call.status,
             createdBy := call.createdBy, endedAt := call.endedAt }
    else none
  else none

/-- One iteration of the loop on the view state. -/
def onCallChange (uid : JsString) (st : ChatState) (change : DocChange) : ChatState :=
  match incomingCallOf uid change with
  | some call => { st with incomingCall := some call }
  | none => st

/-- The `onSnapshot` callback of the calls collection, on the view state. -/
def onCallsSnapshot (uid : JsString) (st : ChatState) (changes : List DocChange) : ChatState :=
  changes.foldl (onCallChange uid) st

/-- The records the callback passes to `setIncomingCall` during one batch, in
call order. -/
def emittedCalls (uid : JsString) (changes : List DocChange) : List IncomingCall :=
  changes.foldl
    (fun acc change =>
      match incomingCallOf uid change with
      | some call => acc ++ [call]
      | none => acc)
    []

/-! ## Attachments and sending (lines 188-261) -/

/-- The method `String.prototype.startsWith`. -/
def startsWith : JsString → JsString → Bool
  | _, [] => true
  | [], _ :: _ => false
  | x :: xs, y :: ys => x == y && startsWith xs ys

/-- The handler `handleFileChange` (lines 188-203), on `e.target.files`. -/
def handleFileChange (st : ChatState) (files : List FileObj) : ChatState × List Effect :=
  match files.head? with
  | none => (st, [])
  | some file =>
    if !startsWith file.type (lit "image/") then
      (st, [.alert (lit "Please upload only image files.")])
    else if file.size > 5 * 1024 * 1024 then
      (st, [.alert (lit "Please upload files smaller than 5MB.")])
    else
      ({ st with file := some file }, [])

/-- The button next to the preview: `onClick={() => setFile(null)}`. -/
def removeFile (st : ChatState) : ChatState :=
  { st with file := none }

/-- What the upload endpoint answers to the `fetch` of `uploadImage`. -/
inductive UploadResponse where
  /-- The `fetch` promise rejects. -/
  | rejected (e : JsError)
  /-- The flag `response.ok` is false; `error` is the `error` field of the body. -/
  | notOk (error : Option JsString)
  /-- The flag `response.ok` is true; `links` is the `links` array of the body. -/
  | ok (links : List JsString)
deriving DecidableEq, Repr

/-- The function `uploadImage` (lines 205-230): the state after `finally`, the effects, and
the returned `data.links[0]` (`none` for `undefined`) or the thrown error. -/
def uploadImage (st : ChatState) (file : FileObj) (resp : UploadResponse) :
    ChatState × List Effect × Except JsError (Option JsString) :=
  let st1 := { st with uploading := true }
  let done := { st1 with uploading := false }
  match resp with
  | .rejected e =>
    (done, [.fetchUpload file, .consoleError (lit "Error uploading image:")], .error e)
  | .notOk error =>
    (done, [.fetchUpload file, .consoleError (lit "Error uploading image:")],
      .error { message := jsOr error (lit "Upload failed") })
  | .ok links => (done, [.fetchUpload file], .ok links.head?)

/-- White space and line terminators, the code units `String.prototype.trim`
removes. -/
def isJsWhitespace (c : Nat) : Bool :=
  c == 9 || c == 10 || c == 11 || c == 12 || c == 13 || c == 32 || c == 160 ||
  c == 5760 || (8192 ≤ c && c ≤ 8202) || c == 8232 || c == 8233 || c == 8239 ||
  c == 8287 || c == 12288 || c == 65279

/-- The method `String.prototype.trim`. -/
def jsTrim (s : JsString) : JsString :=
  ((s.dropWhile isJsWhitespace).reverse.dropWhile isJsWhitespace).reverse

/-- The answers of the outside world to one `sendMessage`. -/
structure SendEnv where
  upload : UploadResponse
  salt : Nat
  addDoc : Except JsError JsString

/-- The `catch` block of `sendMessage` (lines 257-260). -/
def sendFailed (st : ChatState) (effects : List Effect) (error : JsError) :
    ChatState × List Effect :=
  (st, effects ++ [.consoleError (lit "Error sending message:"),
    .alert (lit "Failed to send message: " ++ jsOr (some error.message) (lit "Unknown error"))])

/-- The handler `sendMessage` (lines 232-261). `e.preventDefault()` touches neither the
state nor the outside. -/
def sendMessage (C : Cipher) (secretKey : JsString) (user : User) (st : ChatState)
    (env : SendEnv) : ChatState × List Effect :=
  if (jsTrim st.formValue).isEmpty && st.file.isNone then (st, [])
  else
    let uploaded : ChatState × List Effect × Except JsError (Option JsString) :=
      match st.file with
      | some file => uploadImage st file env.upload
      | none => (st, [], .ok (some []))
    match uploaded with
    | (st1, effects1, .error e) => sendFailed st1 effects1 e
    | (st1, effects1, .ok imageUrl) =>
      match C.encrypt env.salt (jsOr (some st.formValue) []) secretKey with
      | .error e => sendFailed st1 effects1 e
      | .ok encryptedMessage =>
        let payload : TextMessage :=
          { text := encryptedMessage, uid := user.uid, photoURL := user.photoURL,
            displayName := user.displayName, imageUrl := imageUrl }
        let effects2 := effects1 ++ [.addMessage st.chatId payload]
        match env.addDoc with
        | .error e => sendFailed st1 effects2 e
        | .ok _ =>
          ({ st1 with formValue := [], file := none }, effects2 ++ [.scrollIntoView])

/-- The handlers that assign the `file` cell, as events of the view. -/
inductive FileEvent where
  | fileChange (files : List FileObj)
  | removeFile
  | submit (env : SendEnv)

/-- One event on the view state, with the effects it causes. -/
def fileStep (C : Cipher) (secretKey : JsString) (user : User) (st : ChatState) :
    FileEvent → ChatState × List Effect
  | .fileChange files => handleFileChange st files
  | .removeFile => (removeFile st, [])
  | .submit env => sendMessage C secretKey user st env

/-- A sequence of events from a state: the final state and all effects. -/
def fileRun (C : Cipher) (secretKey : JsString) (user : User) :
    ChatState → List FileEvent → ChatState × List Effect
  | st, [] => (st, [])
  | st, ev :: rest =>
    let r := fileStep C secretKey user st ev
    let r2 := fileRun C secretKey user r.1 rest
    (r2.1, r.2 ++ r2.2)

/-- An attachment the claim accepts: an image type within the ceiling. -/
def validAttachment (f : FileObj) : Prop :=
  startsWith f.type (lit "image/") = true ∧ f.size ≤ 5 * 1024 * 1024

/-! ## The typing observer (lines 96-104) -/

/-- The `onSnapshot` callback of the room document. `snapshot` is `doc.data()`,
`none` when the document does not exist; `uid` is the remote user of the route. -/
def onTypingSnapshot (uid : JsString) (st : ChatState) (snapshot : Option RoomData) :
    ChatState :=
  if snapshot.bind (fun data => data.typing) = some uid then { st with isTyping := true }
  else { st with isTyping := false }

/-! ## Room bootstrap (lines 47-60) -/

/-- The names line 3 binds from `firebase/firestore`. -/
def firestoreNames : List String :=
  ["collection", "addDoc", "query", "orderBy", "onSnapshot", "doc", "getDoc", "updateDoc",
   "serverTimestamp"]

/-- Evaluation of an identifier the module itself does not declare: a name
that line 3 does not bind is a `ReferenceError`, thrown before the arguments
of the call are evaluated. -/
def resolveName (name : String) : Except JsError Unit :=
  if name ∈ firestoreNames then .ok ()
  else .error { message := lit (name ++ " is not defined") }

/-- The part of `createChatDoc` after `await getDoc(chatRef)` (lines 51-58):
`seen` is the snapshot read, `store` the document `chats/{chatRoomId}` at the
time of the write, `serverTime` what `serverTimestamp()` resolves to. The
result is the document afterwards and how the promise settles. -/
def createChatDocAfterRead (localUid remoteUid : JsString) (serverTime : Nat)
    (seen store : Option RoomData) : Option RoomData × Except JsError Unit :=
  match seen with
  | some _ => (store, .ok ())
  | none =>
    match resolveName "setDoc" with
    | .error e => (store, .error e)
    | .ok _ =>
      (some { participants := [localUid, remoteUid], createdAt := some serverTime,
              lastMessage := none, typing := none }, .ok ())

/-- The function `createChatDoc` run without anything in between the read
and the write. -/
def createChatDoc (localUid remoteUid : JsString) (serverTime : Nat)
    (store : Option RoomData) : Option RoomData × Except JsError Unit :=
  createChatDocAfterRead localUid remoteUid serverTime store store

/-! ## Calls (lines 263-299) -/

/-- Decimal digits of a number, as a template literal prints `Date.now()`. -/
def decimal (n : Nat) : JsString :=
  if n = 0 then [48] else (Nat.digits 10 n).reverse.map (fun d => d + 48)

/-- Line 267: the template literal of `callId`, with `now = Date.now()`. -/
def callId (now : Nat) (localUid remoteUid : JsString) : JsString :=
  decimal now ++ lit "_" ++ localUid ++ lit "_" ++ remoteUid

/-- The handler `initiateCall` (lines 263-275); `uid` is the remote user of the
route and `now` is `Date.now()`. -/
def initiateCall (user : Option User) (uid : JsString) (now : Nat) (st : ChatState) :
    ChatState :=
  match user, st.recipient with
  | some u, some _ =>
    { st with activeCall := some (.outgoing (callId now u.uid uid) [u.uid, uid]) }
  | _, _ => st

/-- Modelled from the spec: the call transport (`components/VideoCall`, which
the page renders for the active call and which is not among the sources)
creates the call record "when initiating a call": its key is the `callId`, its
participants the ordered pair (caller, callee), its status Pending and its
`createdBy` the caller. The result is the change the calls feed delivers. -/
def callCreated (caller : JsString) : ActiveCall → Option DocChange
  | .outgoing id participants =>
    some { type := .added, id := id,
           data := { participants := participants, status := lit "pending",
                     createdBy := caller, endedAt := none } }
  | .incoming _ => none

/-- The handler `handleRejectCall` (lines 283-295). `now` is `new Date()` and
`record` the document `calls/{incomingCall.id}` in the store, `none` when it
does not exist (`updateDoc` then rejects). The result is the view state, the
effects and the document afterwards. -/
def handleRejectCall (st : ChatState) (now : Nat) (record : Option CallData) :
    ChatState × List Effect × Option CallData :=
  match st.incomingCall with
  | none => (st, [], record)
  | some call =>
    match record with
    | some d =>
      ({ st with incomingCall := none }, [.updateCall call.id (lit "rejected") now],
        some { d with status := lit "rejected", endedAt := some now })
    | none =>
      (st, [.updateCall call.id (lit "rejected") now,
            .consoleError (lit "Error rejecting call:")], none)

/-! ## Picked media (lines 301-319) -/

/-- The handler `handleMediaSelect`; `addDoc` is how the store answers the
write. -/
def handleMediaSelect (user : User) (st : ChatState) (media : Media)
    (addDoc : Except JsError JsString) : ChatState × List Effect :=
  let payload : MediaMessage :=
    { uid := user.uid, photoURL := user.photoURL, displayName := user.displayName,
      mediaType := media.type, mediaUrl := media.url, mediaWidth := media.width,
      mediaHeight := media.height }
  match addDoc with
  | .ok _ => (st, [.addMedia st.chatId payload, .scrollIntoView])
  | .error e =>
    (st, [.addMedia st.chatId payload, .consoleError (lit "Error sending media:"),
          .alert (lit "Failed to send media: " ++ jsOr (some e.message) (lit "Unknown error"))])

/-- A stored message carries the encrypted-text shape: a truthy `text`. -/
def carriesText (d : MessageData) : Prop := ∃ c, d.text = some c ∧ c ≠ []

/-- A stored message carries the image shape: a truthy `imageUrl`. -/
def carriesImage (d : MessageData) : Prop := ∃ u, d.imageUrl = some u ∧ u ≠ []

/-- A stored message carries the media shape: the four media fields. -/
def carriesMedia (d : MessageData) : Prop :=
  d.mediaType.isSome ∧ d.mediaUrl.isSome ∧ d.mediaWidth.isSome ∧ d.mediaHeight.isSome

/-! ## Typing presence (lines 151-186)

`handleTyping` is an `async` function: it runs up to an `await`, and the rest
runs later, when the store has answered; other handlers and timers may run in
between. The model keeps the suspended continuations in a list and lets a
schedule choose which one resumes. The store answers every request; a read
returns when its continuation resumes, a write is applied when it is issued.
Times are in milliseconds. -/

/-- A suspended continuation. -/
inductive TypingTask where
  /-- The rest of `handleTyping` after `await getDoc(chatRef)` (line 158). -/
  | afterGetDoc
  /-- The rest of `handleTyping` after `await updateDoc(...)` (line 168). -/
  | afterWrite
  /-- The rest of the timer callback after `await getDoc(chatRef)` (line 174). -/
  | expiryAfterGetDoc
deriving DecidableEq, Repr

/-- A write to the `typing` field of the room. -/
inductive TypingWrite where
  /-- The payload `{ typing: user.uid }` (lines 161-170). -/
  | set (uid : JsString)
  /-- The payload `{ typing: null }` of the timer callback (lines 176-178). -/
  | clear
deriving DecidableEq, Repr

/-- The room document, the `typingTimeout` cell, the timers of the event loop
that are armed and neither fired nor cleared (id and due time), the suspended
continuations, and what has been written and logged so far. Timer ids start
at 1, as in browsers. -/
structure TypingWorld where
  now : Nat := 0
  room : Option RoomData
  typingTimeout : Option Nat := none
  timers : List (Nat × Nat) := []
  nextTimer : Nat := 1
  tasks : List TypingTask := []
  writes : List (Nat × TypingWrite) := []
  errors : List JsString := []
deriving DecidableEq, Repr

/-- What a schedule can make happen. -/
inductive TypingAction where
  /-- The input's `onChange` calls `handleTyping()`. -/
  | keystroke
  /-- The store answers the request the `i`-th suspended continuation waits for. -/
  | resume (i : Nat)
  /-- The event loop runs the callback of timer `id`, if it is due. -/
  | fire (id : Nat)
deriving DecidableEq, Repr

/-- An action and the clock time at which it happens. -/
structure TimedAction where
  time : Nat
  action : TypingAction
deriving DecidableEq, Repr

/-- The call `clearTimeout(id)`. -/
def clearTimeout (id : Nat) (timers : List (Nat × Nat)) : List (Nat × Nat) :=
  timers.filter (fun p => p.1 != id)

/-- Lines 152-158: `handleTyping` up to its first `await`. The guard is
`!chatId`; `if (typingTimeout)` treats `null` and `0` as absent. -/
def handleTypingStart (chatId : JsString) (w : TypingWorld) : TypingWorld :=
  if chatId = [] then w
  else
    let timers :=
      match w.typingTimeout with
      | some id => if id ≠ 0 then clearTimeout id w.timers else w.timers
      | none => w.timers
    { w with timers := timers, tasks := w.tasks ++ [.afterGetDoc] }

/-- The continuation a task stands for, run to its next `await` or its end.
`afterGetDoc` is lines 160-171, `afterWrite` lines 173-182 (the timer is set
for 2000 ms), `expiryAfterGetDoc` lines 175-179. -/
def resumeTask (localUid remoteUid : JsString) (serverTime : Nat) (w : TypingWorld) :
    TypingTask → TypingWorld
  | .afterGetDoc =>
    match w.room with
    | none =>
      match resolveName "setDoc" with
      | .error _ => { w with errors := w.errors ++ [lit "Error updating typing status:"] }
      | .ok _ =>
        { w with
          room := some { participants := [localUid, remoteUid], createdAt := some serverTime,
                         lastMessage := none, typing := some localUid }
          writes := w.writes ++ [(w.now, .set localUid)]
          tasks := w.tasks ++ [.afterWrite] }
    | some r =>
      { w with
        room := some { r with typing := some localUid }
        writes := w.writes ++ [(w.now, .set localUid)]
        tasks := w.tasks ++ [.afterWrite] }
  | .afterWrite =>
    { w with
      timers := w.timers ++ [(w.nextTimer, w.now + 2000)]
      typingTimeout := some w.nextTimer
      nextTimer := w.nextTimer + 1 }
  | .expiryAfterGetDoc =>
    match w.room with
    | some r =>
      { w with
        room := some { r with typing := none }
        writes := w.writes ++ [(w.now, .clear)] }
    | none => w

/-- The event loop runs the callback of timer `id` up to its `await`
(line 174), provided the timer is armed and due. -/
def fireTimer (id : Nat) (w : TypingWorld) : TypingWorld :=
  if w.timers.any (fun p => p.1 == id && decide (p.2 ≤ w.now)) then
    { w with timers := clearTimeout id w.timers, tasks := w.tasks ++ [.expiryAfterGetDoc] }
  else w

/-- One scheduled action: the clock moves to the action's time (never back),
then the action runs. -/
def typingStep (chatId localUid remoteUid : JsString) (serverTime : Nat) (w : TypingWorld)
    (e : TimedAction) : TypingWorld :=
  let w1 := { w with now := max w.now e.time }
  match e.action with
  | .keystroke => handleTypingStart chatId w1
  | .resume i =>
    match w1.tasks[i]? with
    | some task =>
      resumeTask localUid remoteUid serverTime { w1 with tasks := w1.tasks.eraseIdx i } task
    | none => w1
  | .fire id => fireTimer id w1

/-- A schedule run from a world. -/
def typingRun (chatId localUid remoteUid : JsString) (serverTime : Nat) (w : TypingWorld)
    (schedule : List TimedAction) : TypingWorld :=
  schedule.foldl (typingStep chatId localUid remoteUid serverTime) w

/-- The `typing` field a reader of the room sees: `none` also when the room
does not exist. -/
def typingField (room : Option RoomData) : Option JsString :=
  room.bind (fun r => r.typing)

/-- The state of the typing model between a first keystroke and a second one
at 1000 ms: nothing has cleared the field, no callback has started, and the
one timer that may be armed is the one the `typingTimeout` cell holds, due
after 1000 ms. -/
def BeforeSecondKey (w : TypingWorld) : Prop :=
  w.now ≤ 1000 ∧ 1 ≤ w.nextTimer ∧ (∀ t, (t, TypingWrite.clear) ∉ w.writes) ∧
  TypingTask.expiryAfterGetDoc ∉ w.tasks ∧ w.tasks.length + w.timers.length ≤ 1 ∧
  ∀ p ∈ w.timers, w.typingTimeout = some p.1 ∧ p.1 ≠ 0 ∧ 1000 < p.2

/-- The state of the typing model from the keystroke at 1000 ms on: every
armed timer is due at 3000 ms or later, and every clearing of the field, done
or started, is at 3000 ms or later. -/
def NoExpiryBefore3000 (w : TypingWorld) : Prop :=
  1000 ≤ w.now ∧ (∀ p ∈ w.timers, 3000 ≤ p.2) ∧
  (∀ t, (t, TypingWrite.clear) ∈ w.writes → 3000 ≤ t) ∧
  (TypingTask.expiryAfterGetDoc ∈ w.tasks → 3000 ≤ w.now)

/-- Either something is still to run (a continuation or an armed timer), or
the field reads as none, cleared by a timer callback if the room exists. -/
def ClearedOrPending (w : TypingWorld) : Prop :=
  w.tasks ≠ [] ∨ w.timers ≠ [] ∨
  (typingField w.room = none ∧ (w.room.isSome = true → ∃ t, (t, TypingWrite.clear) ∈ w.writes))

/-- How many scheduled actions a continuation still needs before nothing of
it is left: `afterGetDoc` leads to `afterWrite`, that to a timer, the timer to
its callback. -/
def taskWeight : TypingTask → Nat
  | .afterGetDoc => 4
  | .afterWrite => 3
  | .expiryAfterGetDoc => 1

/-- A bound on the actions needed to run everything that is pending. -/
def pendingWork (w : TypingWorld) : Nat :=
  (w.tasks.map taskWeight).sum + 2 * w.timers.length

/-! ## Accepting and ending a call (lines 277-299) -/

/-- The handler `handleAcceptCall` (lines 277-281). -/
def handleAcceptCall (st : ChatState) : ChatState × List Effect :=
  match st.incomingCall with
  | none => (st, [])
  | some call => ({ st with activeCall := some (.incoming call), incomingCall := none }, [])

/-- The handler `handleEndCall` (lines 297-299). -/
def handleEndCall (st : ChatState) : ChatState :=
  { st with activeCall := none }

/-! ## Message rendering (lines 385-411) -/

/-- What the bubble of one message shows. -/
inductive Bubble where
  /-- The picked media: `<img src={msg.mediaUrl} alt={msg.mediaType} />`. -/
  | media (url alt : JsString)
  /-- The uploaded image: `<img src={msg.imageUrl} />`. -/
  | image (url : JsString)
  /-- The paragraph with its text. -/
  | text (t : JsString)
deriving DecidableEq, Repr

/-- A string field used as a condition: the string when it is truthy. -/
def jsTruthy (s : Option JsString) : Option JsString :=
  match s with
  | some x => if x = [] then none else some x
  | none => none

/-- The conditional of lines 385-411 for one element `msg` of `messages`: the
media when `msg.mediaType && msg.mediaUrl`, else the image when
`msg.imageUrl`, else a paragraph holding
`CryptoJS.AES.decrypt(msg.text, secretKey).toString(CryptoJS.enc.Utf8)`,
which may throw while rendering. -/
def renderBubble (C : Cipher) (secretKey : JsString) (msg : ViewMessage) :
    Except JsError Bubble :=
  match jsTruthy msg.data.mediaType, jsTruthy msg.data.mediaUrl with
  | some mediaType, some mediaUrl => .ok (.media mediaUrl mediaType)
  | _, _ =>
    match jsTruthy msg.data.imageUrl with
    | some imageUrl => .ok (.image imageUrl)
    | none =>
      match C.decrypt msg.text secretKey with
      | .ok t => .ok (.text t)
      | .error e => .error e

/-! ## The view as a transition system -/

/-- The events of the chat view that write one of its state cells. The
`input` event is the `setFormValue` of line 465 (the `handleTyping` call next
to it touches no cell of `ChatState`; it is the typing model above). -/
inductive ViewEvent where
  | fileChange (files : List FileObj)
  | removeFile
  | submit (env : SendEnv)
  | input (value : JsString)
  | roomResolved
  | recipientLoaded
  | messagesSnapshot (docs : List MessageDoc)
  | typingSnapshot (snapshot : Option RoomData)
  | callsSnapshot (changes : List DocChange)
  | initiateCall (now : Nat)
  | acceptCall
  | rejectCall (now : Nat) (record : Option CallData)
  | endCall
  | mediaSelect (media : Media) (addDoc : Except JsError JsString)

/-- One event on the view state, for the signed-in `user` and the remote
user `uid` of the route, with the effects it causes. -/
def viewStep (C : Cipher) (secretKey : JsString) (user : User) (uid : JsString)
    (st : ChatState) : ViewEvent → ChatState × List Effect
  | .fileChange files => handleFileChange st files
  | .removeFile => (removeFile st, [])
  | .submit env => sendMessage C secretKey user st env
  | .input value => ({ st with formValue := value }, [])
  | .roomResolved => ({ st with chatId := chatRoomId user.uid uid }, [])
  | .recipientLoaded => ({ st with recipient := some uid }, [])
  | .messagesSnapshot docs =>
    match onMessagesSnapshot C secretKey st docs with
    | .ok st1 => (st1, [])
    | .error _ => (st, [])
  | .typingSnapshot snapshot => (onTypingSnapshot uid st snapshot, [])
  | .callsSnapshot changes => (onCallsSnapshot user.uid st changes, [])
  | .initiateCall now => (initiateCall (some user) uid now st, [])
  | .acceptCall => handleAcceptCall st
  | .rejectCall now record =>
    ((handleRejectCall st now record).1, (handleRejectCall st now record).2.1)
  | .endCall => (handleEndCall st, [])
  | .mediaSelect media addDoc => handleMediaSelect user st media addDoc

/-- A sequence of events from a state: the final state and all effects. -/
def viewRun (C : Cipher) (secretKey : JsString) (user : User) (uid : JsString) :
    ChatState → List ViewEvent → ChatState × List Effect
  | st, [] => (st, [])
  | st, ev :: rest =>
    let r := viewStep C secretKey user uid st ev
    let r2 := viewRun C secretKey user uid r.1 rest
    (r2.1, r.2 ++ r2.2)

/-- The events that can change the pending attachment. -/
def ViewEvent.touchesFile : ViewEvent → Bool
  | .fileChange _ => true
  | .removeFile => true
  | .submit _ => true
  | _ => false

/-- The state of the typing model while the room document does not exist:
nothing written, no timer armed, only `handleTyping` calls waiting for their
read. -/
def RoomAbsent (w : TypingWorld) : Prop :=
  w.room = none ∧ w.timers = [] ∧ w.writes = [] ∧ w.typingTimeout = none ∧
  ∀ t ∈ w.tasks, t = TypingTask.afterGetDoc

/-! ## Sample ciphers -/

/-- A small cipher that meets `Cipher.RoundTrip`: the salt, then every code
unit shifted by the key length; decryption faults when a unit cannot be
shifted back. -/
def shiftCipher : Cipher where
  encrypt := fun salt s k => .ok (salt :: s.map (fun u => u + k.length))
  decrypt := fun c k =>
    match c with
    | [] => .error { message := lit "Malformed UTF-8 data" }
    | _ :: body =>
      if body.all (fun u => decide (k.length ≤ u)) then .ok (body.map (fun u => u - k.length))
      else .error { message := lit "Malformed UTF-8 data" }

/-- A ciphertext `CryptoJS.AES.encrypt('hello', 'your-secret-key')` can
return (salt `68cd2f9fd27e7edc`). -/
def sampleCiphertext : JsString := lit "U2FsdGVkX19ozS+f0n5+3JqP9Z1KUycmx95JyIkdbNo="

/-- Values of `CryptoJS.AES.decrypt(c, k).toString(CryptoJS.enc.Utf8)` at
`sampleCiphertext` (AES-256-CBC, key and IV derived from passphrase and salt
by MD5, PKCS#7 padding removed without a check). Under the encrypting
passphrase the result is the plaintext. Under `another-key` the block decrypts
to `6d210b8a3cf3417d2dbb87b010c34b80`: the last byte `0x80` is taken as the
padding length, the remaining length is negative and the result is the empty
string, without a throw. Inputs that are not tabulated are a fault. -/
def sampleAes : Cipher where
  encrypt := fun _ _ _ => .error { message := lit "not tabulated" }
  decrypt := fun c k =>
    if c = sampleCiphertext ∧ k = lit "your-secret-key" then .ok (lit "hello")
    else if c = sampleCiphertext ∧ k = lit "another-key" then .ok []
    else .error { message := lit "not tabulated" }

/-- A cipher whose decryption throws on every input: what the subscription
delivers under it shows whether `decrypt` was called. -/
def faultyCipher : Cipher where
  encrypt := fun _ _ _ => .error { message := lit "no key" }
  decrypt := fun _ _ => .error { message := lit "Malformed UTF-8 data" }

/-! ## Theorems -/

theorem strLt_irrefl (a : JsString) : strLt a a = false := by
  induction a with
  | nil => rfl
  | cons x xs ih => simp [strLt, ih]

theorem strLt_asymm : ∀ a b : JsString, strLt a b = true → strLt b a = false
  | [], [], h => by simp [strLt] at h
  | [], _ :: _, _ => by simp [strLt]
  | _ :: _, [], h => by simp [strLt] at h
  | x :: xs, y :: ys, h => by
    simp only [strLt] at h ⊢
    by_cases hxy : x < y
    · have : ¬ y < x := by omega
      simp [this, hxy]
    · by_cases hyx : y < x
      · simp [hxy, hyx] at h
      · simp only [hxy, hyx, if_false] at h ⊢
        exact strLt_asymm xs ys h

theorem strLt_total : ∀ a b : JsString, strLt a b = false → strLt b a = false → a = b
  | [], [], _, _ => rfl
  | [], _ :: _, h, _ => by simp [strLt] at h
  | _ :: _, [], _, h => by simp [strLt] at h
  | x :: xs, y :: ys, h1, h2 => by
    simp only [strLt] at h1 h2
    by_cases hxy : x < y
    · simp [hxy] at h1
    · by_cases hyx : y < x
      · simp [hyx] at h2
      · simp only [hxy, hyx, if_false] at h1 h2
        have hx : x = y := by omega
        rw [hx, strLt_total xs ys h1 h2]

theorem jsSort_pair (a b : JsString) :
    jsSort [a, b] = if strLt b a then [b, a] else [a, b] := by
  simp only [jsSort, List.foldr, sortInsert, sortCompare]
  by_cases h1 : strLt a b = true
  · have h2 := strLt_asymm a b h1
    simp [h1, h2]
  · by_cases h2 : strLt b a = true
    · simp [h1, h2]
    · simp [h1, h2]

/-- C1: the room id does not depend on which of the two users is the local
one: `chatRoomId a b = chatRoomId b a` for all identifiers. -/
theorem chatRoomId_comm (a b : JsString) : chatRoomId a b = chatRoomId b a := by
  simp only [chatRoomId, jsSort_pair]
  by_cases h1 : strLt a b = true
  · have h2 := strLt_asymm a b h1
    simp [h1, h2]
  · by_cases h2 : strLt b a = true
    · have := strLt_asymm b a h2
      simp [h2, this]
    · have hab : a = b := strLt_total a b (by simpa using h1) (by simpa using h2)
      subst hab
      simp

/-! ### The incoming-call observer -/

theorem incomingCallOf_eq_some {X : JsString} {c : DocChange} {r : IncomingCall}
    (h : incomingCallOf X c = some r) :
    c.type = .added ∧ X ∈ c.data.participants ∧ c.data.status = lit "pending" ∧
      c.data.createdBy ≠ X ∧
      r = { id := c.id, participants := c.data.participants, status := c.data.status,
            createdBy := c.data.createdBy, endedAt := c.data.endedAt } := by
  unfold incomingCallOf at h
  split at h
  · next ht =>
    simp only at h
    split at h
    · next hc =>
      simp at hc
      simp only [Option.some.injEq] at h
      exact ⟨ht, hc.1.1, hc.1.2, hc.2, h.symm⟩
    · simp at h
  · simp at h

theorem incomingCallOf_isSome (X : JsString) (c : DocChange) :
    (incomingCallOf X c).isSome = true ↔
      (c.type = .added ∧ X ∈ c.data.participants ∧ c.data.status = lit "pending" ∧
        c.data.createdBy ≠ X) := by
  constructor
  · intro h
    obtain ⟨r, hr⟩ := Option.isSome_iff_exists.mp h
    obtain ⟨h1, h2, h3, h4, _⟩ := incomingCallOf_eq_some hr
    exact ⟨h1, h2, h3, h4⟩
  · rintro ⟨h1, h2, h3, h4⟩
    simp [incomingCallOf, h1, h2, h3, h4]

theorem emittedCalls_foldl (X : JsString) (cs : List DocChange) (acc : List IncomingCall) :
    cs.foldl
      (fun acc change =>
        match incomingCallOf X change with
        | some call => acc ++ [call]
        | none => acc)
      acc = acc ++ cs.filterMap (incomingCallOf X) := by
  induction cs generalizing acc with
  | nil => simp
  | cons c cs ih =>
    simp only [List.foldl_cons, ih]
    cases hc : incomingCallOf X c <;> simp [List.filterMap_cons, hc]

theorem emittedCalls_eq_filterMap (X : JsString) (cs : List DocChange) :
    emittedCalls X cs = cs.filterMap (incomingCallOf X) := by
  simp [emittedCalls, emittedCalls_foldl]

theorem onCallsSnapshot_incomingCall (X : JsString) (cs : List DocChange) (st : ChatState) :
    (onCallsSnapshot X st cs).incomingCall = st.incomingCall ∨
      ∃ r ∈ emittedCalls X cs, (onCallsSnapshot X st cs).incomingCall = some r := by
  induction cs generalizing st with
  | nil => left; rfl
  | cons c cs ih =>
    simp only [onCallsSnapshot, List.foldl_cons] at ih ⊢
    rcases ih (onCallChange X st c) with h | ⟨r, hr, h⟩
    · rw [h]
      unfold onCallChange
      cases hc : incomingCallOf X c with
      | none => left; rfl
      | some call =>
        right
        exact ⟨call, by simp [emittedCalls_eq_filterMap, List.filterMap_cons, hc], rfl⟩
    · right
      refine ⟨r, ?_, h⟩
      rw [emittedCalls_eq_filterMap] at hr ⊢
      rw [List.filterMap_cons]
      cases hc : incomingCallOf X c with
      | none => exact hr
      | some call => exact List.mem_cons_of_mem _ hr

/-- C2: for every local user `X` and every batch of changes, no record the
incoming-call observer passes to `setIncomingCall` has `createdBy = X` or a
status other than `'pending'`, and the stored incoming call after the batch is
either the one held before or such a record. -/
theorem incoming_call_never_own_nor_resolved (X : JsString) (changes : List DocChange) :
    (∀ r ∈ emittedCalls X changes, r.createdBy ≠ X ∧ r.status = lit "pending") ∧
    (∀ (st : ChatState) (r : IncomingCall),
      (onCallsSnapshot X st changes).incomingCall = some r →
        st.incomingCall = some r ∨ (r.createdBy ≠ X ∧ r.status = lit "pending")) := by
  have key : ∀ r ∈ emittedCalls X changes, r.createdBy ≠ X ∧ r.status = lit "pending" := by
    intro r hr
    rw [emittedCalls_eq_filterMap, List.mem_filterMap] at hr
    obtain ⟨c, _, hc⟩ := hr
    obtain ⟨_, _, h3, h4, hr⟩ := incomingCallOf_eq_some hc
    subst hr
    exact ⟨h4, h3⟩
  refine ⟨key, ?_⟩
  intro st r h
  rcases onCallsSnapshot_incomingCall X changes st with h' | ⟨r', hr', h'⟩
  · left; rw [← h', h]
  · right
    rw [h] at h'
    cases h'
    exact key r hr'

/-- C3: a change is emitted exactly when it is `added`, names the local user
among the participants, is `pending` and was created by someone else; the
emitted record is the change's own; what a batch emits is the concatenation of
what each change emits on its own, so other changes, reordering and redelivery
do not alter whether a given record is emitted. -/
theorem incoming_call_emitted_iff (X : JsString) :
    (∀ c : DocChange, (incomingCallOf X c).isSome = true ↔
      (c.type = .added ∧ X ∈ c.data.participants ∧ c.data.status = lit "pending" ∧
        c.data.createdBy ≠ X)) ∧
    (∀ (c : DocChange) (r : IncomingCall), incomingCallOf X c = some r →
      r = { id := c.id, participants := c.data.participants, status := c.data.status,
            createdBy := c.data.createdBy, endedAt := c.data.endedAt }) ∧
    (∀ (before after : List DocChange) (c : DocChange),
      emittedCalls X (before ++ c :: after) =
        emittedCalls X before ++ (incomingCallOf X c).toList ++ emittedCalls X after) ∧
    (∀ cs cs' : List DocChange, cs.Perm cs' → (emittedCalls X cs).Perm (emittedCalls X cs')) ∧
    (∀ (cs : List DocChange) (r : IncomingCall),
      r ∈ emittedCalls X (cs ++ cs) ↔ r ∈ emittedCalls X cs) := by
  refine ⟨incomingCallOf_isSome X, ?_, ?_, ?_, ?_⟩
  · intro c r h
    exact (incomingCallOf_eq_some h).2.2.2.2
  · intro before after c
    simp only [emittedCalls_eq_filterMap, List.filterMap_append, List.filterMap_cons]
    cases incomingCallOf X c <;> simp
  · intro cs cs' h
    simp only [emittedCalls_eq_filterMap]
    exact h.filterMap _
  · intro cs r
    simp [emittedCalls_eq_filterMap, List.filterMap_append]

/-! ### The message subscription -/

theorem decryptText_eq (C : Cipher) (k : JsString) (d : MessageDoc) :
    decryptText C k d.data = .ok (viewMessage C k d).text := by
  unfold decryptText viewMessage
  cases ht : d.data.text with
  | none => rfl
  | some c =>
    by_cases hc : c = []
    · simp [hc]
    · simp only [ne_eq, hc, not_false_eq_true, if_true]
      cases C.decrypt c k <;> rfl

theorem pushMessage_ok (C : Cipher) (k : JsString) (arr : List ViewMessage) (d : MessageDoc) :
    pushMessage C k (.ok arr) d = .ok (arr ++ [viewMessage C k d]) := by
  simp only [pushMessage, decryptText_eq]
  rfl

theorem foldl_pushMessage (C : Cipher) (k : JsString) (docs : List MessageDoc)
    (arr : List ViewMessage) :
    docs.foldl (pushMessage C k) (.ok arr) = .ok (arr ++ docs.map (viewMessage C k)) := by
  induction docs generalizing arr with
  | nil => simp
  | cons d ds ih => simp [List.foldl_cons, pushMessage_ok, ih]

theorem snapshotMessages_eq (C : Cipher) (k : JsString) (docs : List MessageDoc) :
    snapshotMessages C k docs = .ok (docs.map (viewMessage C k)) := by
  simp [snapshotMessages, foldl_pushMessage]

theorem onMessagesSnapshot_eq (C : Cipher) (k : JsString) (st : ChatState)
    (docs : List MessageDoc) :
    onMessagesSnapshot C k st docs = .ok { st with messages := docs.map (viewMessage C k) } := by
  simp [onMessagesSnapshot, snapshotMessages_eq]

/-! ### Sending -/

theorem jsOr_some_nil (s : JsString) : jsOr (some s) [] = s := by
  unfold jsOr
  by_cases h : s = [] <;> simp [h]

theorem jsTrim_eq_nil {s : JsString} (h : ∀ c ∈ s, isJsWhitespace c = true) : jsTrim s = [] := by
  have : s.dropWhile isJsWhitespace = [] := List.dropWhile_eq_nil_iff.mpr h
  simp [jsTrim, this]

/-- What is known of a run of `sendMessage` that reaches `addDoc`. -/
theorem addMessage_mem_sendMessage {C : Cipher} {k : JsString} {user : User} {st : ChatState}
    {env : SendEnv} {cid : JsString} {p : TextMessage}
    (h : Effect.addMessage cid p ∈ (sendMessage C k user st env).2) :
    cid = st.chatId ∧ C.encrypt env.salt st.formValue k = .ok p.text ∧
      (∀ f, st.file = some f →
        (uploadImage st f env.upload).2.2 = .ok p.imageUrl ∧
        ∃ rest, (sendMessage C k user st env).2 =
            .fetchUpload f :: .addMessage cid p :: rest ∧
          ∀ x ∈ rest, x ≠ .fetchUpload f) := by
  unfold sendMessage at h ⊢
  rw [jsOr_some_nil] at h ⊢
  split at h
  · simp at h
  · next hguard =>
    rw [if_neg hguard]
    cases hfile : st.file with
    | none =>
      simp only [hfile] at h ⊢
      cases he : C.encrypt env.salt st.formValue k with
      | error e => simp [he, sendFailed] at h
      | ok c =>
        simp only [he] at h ⊢
        cases ha : env.addDoc with
        | error e =>
          simp [ha, sendFailed] at h
          simp [h.1, h.2]
        | ok i =>
          simp [ha] at h
          simp [h.1, h.2]
    | some f =>
      simp only [hfile] at h ⊢
      cases hu : env.upload with
      | rejected e => simp [hu, uploadImage, sendFailed] at h
      | notOk e => simp [hu, uploadImage, sendFailed] at h
      | ok links =>
        simp only [hu, uploadImage] at h ⊢
        cases he : C.encrypt env.salt st.formValue k with
        | error e => simp [he, sendFailed] at h
        | ok c =>
          simp only [he] at h ⊢
          cases ha : env.addDoc with
          | error e =>
            simp [ha, sendFailed] at h
            simp [h.1, h.2, sendFailed]
          | ok i =>
            simp [ha] at h
            simp [h.1, h.2]

theorem shiftCipher_roundTrip : shiftCipher.RoundTrip := by
  intro salt s k c h
  simp only [shiftCipher, Except.ok.injEq] at h
  subst h
  refine ⟨by simp, ?_⟩
  simp [shiftCipher, List.map_map, Function.comp_def]

/-! ### Claims on messages -/

/-- C4: under a cipher that meets its round-trip contract, a message that
`sendMessage` writes from the pending text `s` with key `k` is delivered by the
subscription running under `k` with text `s`, wherever its document stands in
the snapshot. -/
theorem sent_text_is_delivered (C : Cipher) (hC : C.RoundTrip) (k : JsString) (user : User)
    (st st0 : ChatState) (env : SendEnv) (cid : JsString) (p : TextMessage)
    (hw : Effect.addMessage cid p ∈ (sendMessage C k user st env).2)
    (id : JsString) (createdAt : Option Nat) (before after : List MessageDoc) :
    onMessagesSnapshot C k st0 (before ++ { id := id, data := p.stored createdAt } :: after) =
      .ok { st0 with
        messages := before.map (viewMessage C k) ++
          { id := id, data := p.stored createdAt, text := st.formValue, timestamp := createdAt } ::
            after.map (viewMessage C k) } := by
  obtain ⟨_, henc, _⟩ := addMessage_mem_sendMessage hw
  obtain ⟨hne, hdec⟩ := hC _ _ _ _ henc
  rw [onMessagesSnapshot_eq]
  simp [viewMessage, TextMessage.stored, hne, hdec]

/-- C4, the example of the specification: sending "hello" yields one delivered
message with text "hello". -/
theorem sent_text_is_delivered_witness :
    Effect.addMessage (lit "a_b")
        { text := 7 :: lit "khoor", uid := lit "a", photoURL := none, displayName := none,
          imageUrl := some [] } ∈
      (sendMessage shiftCipher (lit "key") { uid := lit "a", photoURL := none, displayName := none }
        { formValue := lit "hello", chatId := lit "a_b" }
        { upload := .ok [], salt := 7, addDoc := .ok (lit "m1") }).2 ∧
    onMessagesSnapshot shiftCipher (lit "key") {}
        ([] ++ { id := lit "m1",
                 data := TextMessage.stored
                   { text := 7 :: lit "khoor", uid := lit "a", photoURL := none,
                     displayName := none, imageUrl := some [] } (some 1000) } :: []) =
      .ok { messages := List.map (viewMessage shiftCipher (lit "key")) [] ++
          { id := lit "m1",
            data := TextMessage.stored
              { text := 7 :: lit "khoor", uid := lit "a", photoURL := none,
                displayName := none, imageUrl := some [] } (some 1000),
            text := lit "hello", timestamp := some 1000 } ::
            List.map (viewMessage shiftCipher (lit "key")) [] } :=
  ⟨by decide,
   sent_text_is_delivered shiftCipher shiftCipher_roundTrip (lit "key")
     { uid := lit "a", photoURL := none, displayName := none }
     { formValue := lit "hello", chatId := lit "a_b" } {}
     { upload := .ok [], salt := 7, addDoc := .ok (lit "m1") } (lit "a_b") _ (by decide)
     (lit "m1") (some 1000) [] []⟩

/-- C5: when decryption under the subscriber's key returns a string instead of
throwing, the subscription delivers that string as the text; the placeholder
is not substituted. -/
theorem unthrown_decryption_is_delivered (C : Cipher) (k' : JsString) (st0 : ChatState)
    (d : MessageDoc) (c t : JsString) (hc : d.data.text = some c) (hne : c ≠ [])
    (hdec : C.decrypt c k' = .ok t) :
    onMessagesSnapshot C k' st0 [d] =
      .ok { st0 with
        messages := [{ id := d.id, data := d.data, text := t, timestamp := d.data.createdAt }] } := by
  rw [onMessagesSnapshot_eq]
  simp [viewMessage, hc, hne, hdec]

/-- C5 at a ciphertext of "hello" written under `your-secret-key` and read
under `another-key`: the delivered text is the empty string, not the
placeholder. -/
theorem unthrown_decryption_is_delivered_witness :
    onMessagesSnapshot sampleAes (lit "another-key") {}
        [{ id := lit "m1",
           data := TextMessage.stored
             { text := sampleCiphertext, uid := lit "p1", photoURL := none, displayName := none,
               imageUrl := some [] } (some 1000) }] =
      .ok { messages :=
        [{ id := lit "m1",
           data := TextMessage.stored
             { text := sampleCiphertext, uid := lit "p1", photoURL := none, displayName := none,
               imageUrl := some [] } (some 1000),
           text := [], timestamp := some 1000 }] } ∧
    ([] : JsString) ≠ placeholder :=
  ⟨unthrown_decryption_is_delivered sampleAes (lit "another-key") {}
     { id := lit "m1",
       data := TextMessage.stored
         { text := sampleCiphertext, uid := lit "p1", photoURL := none, displayName := none,
           imageUrl := some [] } (some 1000) }
     sampleCiphertext [] rfl (by decide) (by rfl),
   by decide⟩

/-- C6: for every snapshot the callback succeeds and stores a list with one
entry per document, in snapshot order: same length, the i-th entry has the
i-th document's id, and the sequence of `createdAt` values is that of the
snapshot, so any order it satisfies is kept. -/
theorem snapshot_keeps_every_message (C : Cipher) (k : JsString) (st : ChatState)
    (docs : List MessageDoc) :
    ∃ out : List ViewMessage,
      onMessagesSnapshot C k st docs = .ok { st with messages := out } ∧
      out.length = docs.length ∧
      (∀ (i : Nat) (h : i < docs.length),
        (out[i]?).map ViewMessage.id = some (docs.get ⟨i, h⟩).id) ∧
      out.map (fun m => m.data.createdAt) = docs.map (fun d => d.data.createdAt) ∧
      (∀ r : Option Nat → Option Nat → Prop,
        (docs.map (fun d => d.data.createdAt)).Pairwise r →
          (out.map (fun m => m.data.createdAt)).Pairwise r) := by
  have hmap : (docs.map (viewMessage C k)).map (fun m => m.data.createdAt) =
      docs.map (fun d => d.data.createdAt) := by
    simp [List.map_map, Function.comp_def, viewMessage]
  refine ⟨docs.map (viewMessage C k), onMessagesSnapshot_eq C k st docs, by simp, ?_, hmap, ?_⟩
  · intro i h
    simp [List.getElem?_map, List.getElem?_eq_getElem h, viewMessage]
  · intro r hr
    rw [hmap]
    exact hr

/-- A document whose decryption throws does not make the callback raise:
the batch is delivered whole, that message carrying the placeholder and the
messages before and after it being what they are without it. -/
theorem decryption_fault_yields_placeholder (C : Cipher) (k : JsString) (st : ChatState)
    (before after : List MessageDoc) (d : MessageDoc) (c : JsString) (e : JsError)
    (hc : d.data.text = some c) (hne : c ≠ []) (hdec : C.decrypt c k = .error e) :
    ∃ out1 out2 : List ViewMessage,
      onMessagesSnapshot C k st before = .ok { st with messages := out1 } ∧
      onMessagesSnapshot C k st after = .ok { st with messages := out2 } ∧
      onMessagesSnapshot C k st (before ++ d :: after) =
        .ok { st with
          messages := out1 ++
            { id := d.id, data := d.data, text := placeholder, timestamp := d.data.createdAt } ::
              out2 } := by
  refine ⟨before.map (viewMessage C k), after.map (viewMessage C k),
    onMessagesSnapshot_eq C k st before, onMessagesSnapshot_eq C k st after, ?_⟩
  rw [onMessagesSnapshot_eq]
  simp [viewMessage, hc, hne, hdec]

/-- C6 on a snapshot of two documents, the second of which cannot be
decrypted. -/
theorem snapshot_keeps_every_message_witness :
    ∃ out : List ViewMessage,
      onMessagesSnapshot shiftCipher (lit "key") {}
          [{ id := lit "m1",
             data := TextMessage.stored
               { text := 7 :: lit "khoor", uid := lit "a", photoURL := none,
                 displayName := none, imageUrl := some [] } (some 1000) },
           { id := lit "m2",
             data := TextMessage.stored
               { text := [7, 1], uid := lit "b", photoURL := none,
                 displayName := none, imageUrl := some [] } (some 2000) }] =
        .ok { messages := out } ∧
      out.length = 2 ∧
      out.map ViewMessage.id = [lit "m1", lit "m2"] ∧
      out.map (fun m => m.data.createdAt) = [some 1000, some 2000] := by
  obtain ⟨out, h1, h2, h3, h4, _⟩ :=
    snapshot_keeps_every_message shiftCipher (lit "key") {}
      [{ id := lit "m1",
         data := TextMessage.stored
           { text := 7 :: lit "khoor", uid := lit "a", photoURL := none,
             displayName := none, imageUrl := some [] } (some 1000) },
       { id := lit "m2",
         data := TextMessage.stored
           { text := [7, 1], uid := lit "b", photoURL := none,
             displayName := none, imageUrl := some [] } (some 2000) }]
  refine ⟨out, h1, h2, ?_, h4⟩
  have e0 := h3 0 (by decide)
  have e1 := h3 1 (by decide)
  match out, h2 with
  | [a, b], _ =>
    simp at e0 e1
    simp [e0, e1]

/-- The throwing case on a batch whose middle document cannot be shifted back. -/
theorem decryption_fault_yields_placeholder_witness :
    shiftCipher.decrypt [7, 1] (lit "key") = .error { message := lit "Malformed UTF-8 data" } ∧
    ∃ out1 out2 : List ViewMessage,
      onMessagesSnapshot shiftCipher (lit "key") {}
          [{ id := lit "m1",
             data := TextMessage.stored
               { text := 7 :: lit "khoor", uid := lit "a", photoURL := none,
                 displayName := none, imageUrl := some [] } (some 1000) }] =
        .ok { messages := out1 } ∧
      onMessagesSnapshot shiftCipher (lit "key") {}
          [{ id := lit "m3",
             data := TextMessage.stored
               { text := 7 :: lit "elh", uid := lit "a", photoURL := none,
                 displayName := none, imageUrl := some [] } (some 3000) }] =
        .ok { messages := out2 } ∧
      onMessagesSnapshot shiftCipher (lit "key") {}
          ([{ id := lit "m1",
              data := TextMessage.stored
                { text := 7 :: lit "khoor", uid := lit "a", photoURL := none,
                  displayName := none, imageUrl := some [] } (some 1000) }] ++
            { id := lit "m2",
              data := TextMessage.stored
                { text := [7, 1], uid := lit "b", photoURL := none,
                  displayName := none, imageUrl := some [] } (some 2000) } ::
            [{ id := lit "m3",
               data := TextMessage.stored
                 { text := 7 :: lit "elh", uid := lit "a", photoURL := none,
                   displayName := none, imageUrl := some [] } (some 3000) }]) =
        .ok { messages := out1 ++
          { id := lit "m2",
            data := TextMessage.stored
              { text := [7, 1], uid := lit "b", photoURL := none,
                displayName := none, imageUrl := some [] } (some 2000),
            text := placeholder, timestamp := some 2000 } :: out2 } :=
  ⟨rfl,
   decryption_fault_yields_placeholder shiftCipher (lit "key") {}
     [{ id := lit "m1",
        data := TextMessage.stored
          { text := 7 :: lit "khoor", uid := lit "a", photoURL := none,
            displayName := none, imageUrl := some [] } (some 1000) }]
     [{ id := lit "m3",
        data := TextMessage.stored
          { text := 7 :: lit "elh", uid := lit "a", photoURL := none,
            displayName := none, imageUrl := some [] } (some 3000) }]
     { id := lit "m2",
       data := TextMessage.stored
         { text := [7, 1], uid := lit "b", photoURL := none,
           displayName := none, imageUrl := some [] } (some 2000) }
     [7, 1] { message := lit "Malformed UTF-8 data" } rfl (by decide) rfl⟩

/-! ### Claims on sending and attachments -/

/-- C8: with a pending text that is empty or made of white space only and no
pending file, `sendMessage` returns at once: no effect at all (no upload, no
store write) and the state, with its pending text, pending file and message
list, is the one it started from. -/
theorem empty_send_is_rejected (C : Cipher) (k : JsString) (user : User) (st : ChatState)
    (env : SendEnv) (hws : ∀ c ∈ st.formValue, isJsWhitespace c = true)
    (hfile : st.file = none) :
    sendMessage C k user st env = (st, []) := by
  simp [sendMessage, jsTrim_eq_nil hws, hfile]

/-- C8 on a pending text of a space, a tab and a line feed. -/
theorem empty_send_is_rejected_witness :
    (∀ c ∈ ([32, 9, 10] : JsString), isJsWhitespace c = true) ∧
    sendMessage shiftCipher (lit "key") { uid := lit "a", photoURL := none, displayName := none }
        { formValue := [32, 9, 10], chatId := lit "a_b" }
        { upload := .ok [lit "u"], salt := 7, addDoc := .ok (lit "m1") } =
      ({ formValue := [32, 9, 10], chatId := lit "a_b" }, []) :=
  ⟨by decide,
   empty_send_is_rejected shiftCipher (lit "key")
     { uid := lit "a", photoURL := none, displayName := none }
     { formValue := [32, 9, 10], chatId := lit "a_b" }
     { upload := .ok [lit "u"], salt := 7, addDoc := .ok (lit "m1") } (by decide) rfl⟩

theorem sendMessage_file (C : Cipher) (k : JsString) (user : User) (st : ChatState)
    (env : SendEnv) :
    ((sendMessage C k user st env).1.file = st.file ∨
      (sendMessage C k user st env).1.file = none) ∧
    ∀ g, Effect.fetchUpload g ∈ (sendMessage C k user st env).2 → st.file = some g := by
  unfold sendMessage
  split
  · simp
  · cases hfile : st.file with
    | none =>
      simp only
      cases C.encrypt env.salt (jsOr (some st.formValue) []) k with
      | error e => simp [sendFailed, hfile]
      | ok c =>
        cases env.addDoc with
        | error e => simp [sendFailed, hfile]
        | ok i => simp
    | some f =>
      simp only
      cases env.upload with
      | rejected e => simp [uploadImage, sendFailed, hfile]
      | notOk e => simp [uploadImage, sendFailed, hfile]
      | ok links =>
        simp only [uploadImage]
        cases C.encrypt env.salt (jsOr (some st.formValue) []) k with
        | error e => simp [sendFailed, hfile]
        | ok c =>
          cases env.addDoc with
          | error e => simp [sendFailed, hfile]
          | ok i => simp

theorem handleFileChange_invalid (st : ChatState) (f : FileObj) (rest : List FileObj)
    (h : ¬ validAttachment f) :
    ∃ msg, handleFileChange st (f :: rest) = (st, [.alert msg]) := by
  unfold handleFileChange
  simp only [List.head?_cons]
  by_cases h1 : startsWith f.type (lit "image/") = true
  · have h2 : f.size > 5 * 1024 * 1024 := by
      by_contra hle
      exact h ⟨h1, by omega⟩
    exact ⟨lit "Please upload files smaller than 5MB.", by simp [h1, h2]⟩
  · exact ⟨lit "Please upload only image files.", by simp [h1]⟩

theorem handleFileChange_valid (st : ChatState) (f : FileObj) (rest : List FileObj)
    (h : validAttachment f) :
    handleFileChange st (f :: rest) = ({ st with file := some f }, []) := by
  obtain ⟨h1, h2⟩ := h
  have h3 : ¬ f.size > 5 * 1024 * 1024 := by omega
  simp [handleFileChange, h1, h3]

theorem fileStep_valid (C : Cipher) (k : JsString) (user : User) (st : ChatState)
    (ev : FileEvent) (hst : ∀ f, st.file = some f → validAttachment f) :
    (∀ f, (fileStep C k user st ev).1.file = some f → validAttachment f) ∧
    ∀ f, Effect.fetchUpload f ∈ (fileStep C k user st ev).2 → validAttachment f := by
  cases ev with
  | fileChange files =>
    cases files with
    | nil => simpa [fileStep, handleFileChange] using hst
    | cons g rest =>
      by_cases hg : validAttachment g
      · simp only [fileStep, handleFileChange_valid st g rest hg]
        refine ⟨?_, by simp⟩
        intro f hf
        simp only [Option.some.injEq] at hf
        exact hf ▸ hg
      · obtain ⟨msg, hmsg⟩ := handleFileChange_invalid st g rest hg
        simp only [fileStep, hmsg]
        exact ⟨hst, by simp⟩
  | removeFile => simp [fileStep, removeFile]
  | submit env =>
    obtain ⟨h1, h2⟩ := sendMessage_file C k user st env
    simp only [fileStep]
    refine ⟨?_, fun f hf => hst f (h2 f hf)⟩
    intro f hf
    rcases h1 with h1 | h1
    · exact hst f (h1 ▸ hf)
    · rw [h1] at hf
      cases hf

theorem fileRun_valid (C : Cipher) (k : JsString) (user : User) (events : List FileEvent) :
    ∀ st : ChatState, (∀ f, st.file = some f → validAttachment f) →
      ∀ f, Effect.fetchUpload f ∈ (fileRun C k user st events).2 → validAttachment f := by
  induction events with
  | nil => intro st _ f hf; simp [fileRun] at hf
  | cons ev rest ih =>
    intro st hst f hf
    obtain ⟨h1, h2⟩ := fileStep_valid C k user st ev hst
    simp only [fileRun, List.mem_append] at hf
    rcases hf with hf | hf
    · exact h2 f hf
    · exact ih _ h1 f hf

/-- C9, as stated, fails: given a 10 MiB image, or a file that is not an
image, `uploadImage` performs the `fetch` and returns the link it is given. -/
theorem uploadImage_validates_nothing :
    ¬ validAttachment { name := lit "big.png", type := lit "image/png", size := 10 * 1024 * 1024 } ∧
    uploadImage {} { name := lit "big.png", type := lit "image/png", size := 10 * 1024 * 1024 }
        (.ok [lit "https://img/1"]) =
      ({}, [.fetchUpload { name := lit "big.png", type := lit "image/png",
                            size := 10 * 1024 * 1024 }],
        .ok (some (lit "https://img/1"))) ∧
    ¬ validAttachment { name := lit "notes.txt", type := lit "text/plain", size := 12 } ∧
    uploadImage {} { name := lit "notes.txt", type := lit "text/plain", size := 12 }
        (.ok [lit "https://img/2"]) =
      ({}, [.fetchUpload { name := lit "notes.txt", type := lit "text/plain", size := 12 }],
        .ok (some (lit "https://img/2"))) := by
  refine ⟨?_, rfl, ?_, rfl⟩
  · intro h
    exact absurd h.2 (by decide)
  · intro h
    exact absurd h.1 (by decide)

/-- C9, amended: the check is made by `handleFileChange`, when the file is
selected. A file that is not an image or exceeds 5 MiB is answered with an
alert only, the pending file unchanged and nothing sent; an image within the
ceiling becomes the pending file. From a state whose pending file is absent or
valid, every file a sequence of selections, removals and sends uploads is an
image within the ceiling. A 10 MiB image is refused at selection. -/
theorem attachment_checked_on_selection (C : Cipher) (k : JsString) (user : User) :
    (∀ (st : ChatState) (f : FileObj) (rest : List FileObj), ¬ validAttachment f →
      ∃ msg, handleFileChange st (f :: rest) = (st, [.alert msg])) ∧
    (∀ (st : ChatState) (f : FileObj) (rest : List FileObj), validAttachment f →
      handleFileChange st (f :: rest) = ({ st with file := some f }, [])) ∧
    (∀ (st : ChatState) (events : List FileEvent),
      (∀ f, st.file = some f → validAttachment f) →
        ∀ f, Effect.fetchUpload f ∈ (fileRun C k user st events).2 → validAttachment f) ∧
    (∀ (st : ChatState) (name : JsString),
      handleFileChange st [{ name := name, type := lit "image/png", size := 10 * 1024 * 1024 }] =
        (st, [.alert (lit "Please upload files smaller than 5MB.")])) := by
  refine ⟨handleFileChange_invalid, handleFileChange_valid, ?_, ?_⟩
  · intro st events hst
    exact fileRun_valid C k user events st hst
  · intro st name
    have h1 : startsWith (lit "image/png") (lit "image/") = true := by decide
    simp [handleFileChange, h1]

/-- C9, amended, on a run that selects a 10 MiB image (refused), selects a
small image (accepted) and sends: the one upload is of the small image. -/
theorem attachment_checked_on_selection_witness :
    validAttachment { name := lit "cat.png", type := lit "image/png", size := 2048 } ∧
    handleFileChange {} [{ name := lit "cat.png", type := lit "image/png", size := 2048 }] =
      ({ file := some { name := lit "cat.png", type := lit "image/png", size := 2048 } }, []) ∧
    ¬ validAttachment { name := lit "big.png", type := lit "image/png", size := 10 * 1024 * 1024 } ∧
    (∃ msg, handleFileChange {}
        [{ name := lit "big.png", type := lit "image/png", size := 10 * 1024 * 1024 }] =
      ({}, [.alert msg])) ∧
    Effect.fetchUpload { name := lit "cat.png", type := lit "image/png", size := 2048 } ∈
      (fileRun shiftCipher (lit "key") { uid := lit "a", photoURL := none, displayName := none } {}
        [.fileChange [{ name := lit "big.png", type := lit "image/png", size := 10 * 1024 * 1024 }],
         .fileChange [{ name := lit "cat.png", type := lit "image/png", size := 2048 }],
         .submit { upload := .ok [lit "u"], salt := 7, addDoc := .ok (lit "m1") }]).2 :=
  have hsmall : validAttachment { name := lit "cat.png", type := lit "image/png", size := 2048 } :=
    ⟨by decide, by decide⟩
  have hbig : ¬ validAttachment
      { name := lit "big.png", type := lit "image/png", size := 10 * 1024 * 1024 } :=
    fun h => absurd h.2 (by decide)
  have hthm := attachment_checked_on_selection shiftCipher (lit "key")
    { uid := lit "a", photoURL := none, displayName := none }
  ⟨hsmall, hthm.2.1 {} _ [] hsmall, hbig, hthm.1 {} _ [] hbig, by decide⟩

/-- C10: with a pending file, a throw of `uploadImage` leaves the run of
`sendMessage` without any `addDoc`; and whenever `addDoc` is reached, the
upload has returned (its value is the written `imageUrl`), its `fetch` is the
first effect, the write the second, and no further `fetch` follows. -/
theorem failed_upload_writes_nothing (C : Cipher) (k : JsString) (user : User) (st : ChatState)
    (env : SendEnv) (f : FileObj) (hf : st.file = some f) :
    (∀ e, (uploadImage st f env.upload).2.2 = .error e →
      ∀ cid p, Effect.addMessage cid p ∉ (sendMessage C k user st env).2) ∧
    (∀ cid p, Effect.addMessage cid p ∈ (sendMessage C k user st env).2 →
      (uploadImage st f env.upload).2.2 = .ok p.imageUrl ∧
      ∃ rest, (sendMessage C k user st env).2 = .fetchUpload f :: .addMessage cid p :: rest ∧
        ∀ x ∈ rest, x ≠ .fetchUpload f) := by
  constructor
  · intro e he cid p hmem
    have h := ((addMessage_mem_sendMessage hmem).2.2 f hf).1
    rw [he] at h
    cases h
  · intro cid p hmem
    exact (addMessage_mem_sendMessage hmem).2.2 f hf

/-- C10 on an upload the endpoint refuses: the effects of the send are the
`fetch`, the two console lines and the alert, and no write. -/
theorem failed_upload_writes_nothing_witness :
    (uploadImage
        { formValue := lit "hi", chatId := lit "a_b",
          file := some { name := lit "cat.png", type := lit "image/png", size := 2048 } }
        { name := lit "cat.png", type := lit "image/png", size := 2048 }
        (.notOk (some (lit "disk full")))).2.2 = .error { message := lit "disk full" } ∧
    ∀ cid p, Effect.addMessage cid p ∉
      (sendMessage shiftCipher (lit "key") { uid := lit "a", photoURL := none, displayName := none }
        { formValue := lit "hi", chatId := lit "a_b",
          file := some { name := lit "cat.png", type := lit "image/png", size := 2048 } }
        { upload := .notOk (some (lit "disk full")), salt := 7, addDoc := .ok (lit "m1") }).2 :=
  ⟨rfl,
   (failed_upload_writes_nothing shiftCipher (lit "key")
      { uid := lit "a", photoURL := none, displayName := none }
      { formValue := lit "hi", chatId := lit "a_b",
        file := some { name := lit "cat.png", type := lit "image/png", size := 2048 } }
      { upload := .notOk (some (lit "disk full")), salt := 7, addDoc := .ok (lit "m1") }
      { name := lit "cat.png", type := lit "image/png", size := 2048 } rfl).1
    { message := lit "disk full" } rfl⟩

/-! ### Witnesses for the call observer -/

/-- C2 on a batch of a peer's pending call, the user's own call and a call
already ended: only the first is emitted. -/
theorem incoming_call_never_own_nor_resolved_witness :
    ({ id := lit "c1", participants := [lit "p1", lit "p2"], status := lit "pending",
       createdBy := lit "p1", endedAt := none } : IncomingCall) ∈
      emittedCalls (lit "p2")
        [{ type := .added, id := lit "c1",
           data := { participants := [lit "p1", lit "p2"], status := lit "pending",
                     createdBy := lit "p1", endedAt := none } },
         { type := .added, id := lit "c2",
           data := { participants := [lit "p2", lit "p1"], status := lit "pending",
                     createdBy := lit "p2", endedAt := none } },
         { type := .added, id := lit "c3",
           data := { participants := [lit "p1", lit "p2"], status := lit "ended",
                     createdBy := lit "p1", endedAt := some 5 } }] ∧
    (lit "p1" ≠ lit "p2" ∧ lit "pending" = lit "pending") :=
  ⟨by decide,
   (incoming_call_never_own_nor_resolved (lit "p2")
      [{ type := .added, id := lit "c1",
         data := { participants := [lit "p1", lit "p2"], status := lit "pending",
                   createdBy := lit "p1", endedAt := none } },
       { type := .added, id := lit "c2",
         data := { participants := [lit "p2", lit "p1"], status := lit "pending",
                   createdBy := lit "p2", endedAt := none } },
       { type := .added, id := lit "c3",
         data := { participants := [lit "p1", lit "p2"], status := lit "ended",
                   createdBy := lit "p1", endedAt := some 5 } }]).1
    { id := lit "c1", participants := [lit "p1", lit "p2"], status := lit "pending",
      createdBy := lit "p1", endedAt := none } (by decide)⟩

/-- C3 on a pending call from a peer: it is emitted, and a `modified` change
of the same document is not. -/
theorem incoming_call_emitted_iff_witness :
    (incomingCallOf (lit "p2")
        { type := .added, id := lit "c1",
          data := { participants := [lit "p1", lit "p2"], status := lit "pending",
                    createdBy := lit "p1", endedAt := none } }).isSome = true ∧
    ¬ (incomingCallOf (lit "p2")
        { type := .modified, id := lit "c1",
          data := { participants := [lit "p1", lit "p2"], status := lit "pending",
                    createdBy := lit "p1", endedAt := none } }).isSome = true :=
  ⟨((incoming_call_emitted_iff (lit "p2")).1
      { type := .added, id := lit "c1",
        data := { participants := [lit "p1", lit "p2"], status := lit "pending",
                  createdBy := lit "p1", endedAt := none } }).2
      ⟨rfl, by decide, rfl, by decide⟩,
   fun h => absurd (((incoming_call_emitted_iff (lit "p2")).1
      { type := .modified, id := lit "c1",
        data := { participants := [lit "p1", lit "p2"], status := lit "pending",
                  createdBy := lit "p1", endedAt := none } }).1 h).1 (by decide)⟩

/-! ### Typing observer -/

/-- C11: after a room snapshot `isTyping` is true exactly when the room's
`typing` field is the remote user's id; a `typing` field that holds the local
user's id, the two ids being different, gives `isTyping = false`. -/
theorem isTyping_iff_remote_typing (uid : JsString) (st : ChatState)
    (snapshot : Option RoomData) :
    ((onTypingSnapshot uid st snapshot).isTyping = true ↔
      ∃ d, snapshot = some d ∧ d.typing = some uid) ∧
    (∀ (localUid : JsString) (d : RoomData), localUid ≠ uid → snapshot = some d →
      d.typing = some localUid → (onTypingSnapshot uid st snapshot).isTyping = false) := by
  constructor
  · unfold onTypingSnapshot
    cases snapshot with
    | none => simp
    | some d =>
      by_cases h : d.typing = some uid
      · simp [h]
      · simp [h]
  · intro localUid d hne hs ht
    subst hs
    have h : ¬ d.typing = some uid := by
      rw [ht]
      intro h
      exact hne (Option.some.inj h)
    simp [onTypingSnapshot, h]

/-- C11 on a room where the remote user `b` types, and on one where the local
user `a` does. -/
theorem isTyping_iff_remote_typing_witness :
    (onTypingSnapshot (lit "b") {}
      (some { participants := [lit "a", lit "b"], createdAt := some 1, lastMessage := none,
              typing := some (lit "b") })).isTyping = true ∧
    (onTypingSnapshot (lit "b") {}
      (some { participants := [lit "a", lit "b"], createdAt := some 1, lastMessage := none,
              typing := some (lit "a") })).isTyping = false :=
  ⟨(isTyping_iff_remote_typing (lit "b") {} _).1.2 ⟨_, rfl, rfl⟩,
   (isTyping_iff_remote_typing (lit "b") {} _).2 (lit "a") _ (by decide) rfl rfl⟩

/-! ### Calls -/

/-- C14: with an incoming call held and its record in the store,
`handleRejectCall` issues the update of `calls/{incomingCall.id}` with status
`'rejected'` and `endedAt` the current time, the record takes these two values
and the view holds no incoming call; with no incoming call held nothing is
written and nothing changes. -/
theorem reject_writes_rejected (st : ChatState) (now : Nat) (record : Option CallData) :
    (∀ (call : IncomingCall) (d : CallData), st.incomingCall = some call → record = some d →
      handleRejectCall st now record =
        ({ st with incomingCall := none }, [.updateCall call.id (lit "rejected") now],
          some { d with status := lit "rejected", endedAt := some now })) ∧
    (st.incomingCall = none → handleRejectCall st now record = (st, [], record)) := by
  constructor
  · intro call d hc hr
    simp [handleRejectCall, hc, hr]
  · intro hc
    simp [handleRejectCall, hc]

/-- C14 on a pending call from `p1` held by `p2`. -/
theorem reject_writes_rejected_witness :
    handleRejectCall
        { incomingCall := some { id := lit "c1", participants := [lit "p1", lit "p2"],
                                 status := lit "pending", createdBy := lit "p1",
                                 endedAt := none } }
        77
        (some { participants := [lit "p1", lit "p2"], status := lit "pending",
                createdBy := lit "p1", endedAt := none }) =
      ({}, [.updateCall (lit "c1") (lit "rejected") 77],
        some { participants := [lit "p1", lit "p2"], status := lit "rejected",
               createdBy := lit "p1", endedAt := some 77 }) ∧
    handleRejectCall {} 77 none = ({}, [], none) :=
  ⟨(reject_writes_rejected _ 77 _).1 _ _ rfl rfl, (reject_writes_rejected {} 77 none).2 rfl⟩

/-- C15: once `p1` has initiated a call to another user `p2`, the active call
is the outgoing one with the `callId` of line 267, and the record the call
transport creates for it makes the observer of `p2` emit exactly one record,
pending and created by `p1`. -/
theorem initiated_call_reaches_callee (p1 : User) (p2 : JsString) (now : Nat) (st : ChatState)
    (r : JsString) (hrec : st.recipient = some r) (hne : p1.uid ≠ p2) :
    (initiateCall (some p1) p2 now st).activeCall =
      some (.outgoing (callId now p1.uid p2) [p1.uid, p2]) ∧
    ∃ change : DocChange,
      (initiateCall (some p1) p2 now st).activeCall.bind (callCreated p1.uid) = some change ∧
      emittedCalls p2 [change] =
        [{ id := callId now p1.uid p2, participants := [p1.uid, p2], status := lit "pending",
           createdBy := p1.uid, endedAt := none }] := by
  have h1 : (initiateCall (some p1) p2 now st).activeCall =
      some (.outgoing (callId now p1.uid p2) [p1.uid, p2]) := by
    simp [initiateCall, hrec]
  refine ⟨h1, _, by rw [h1]; rfl, ?_⟩
  simp [emittedCalls_eq_filterMap, incomingCallOf, hne]

/-- C15 for `p1` calling `p2` at time 1700000000000. -/
theorem initiated_call_reaches_callee_witness :
    (initiateCall (some { uid := lit "p1", photoURL := none, displayName := none }) (lit "p2")
        1700000000000 { recipient := some (lit "p2") }).activeCall =
      some (.outgoing (callId 1700000000000 (lit "p1") (lit "p2")) [lit "p1", lit "p2"]) ∧
    ∃ change : DocChange,
      (initiateCall (some { uid := lit "p1", photoURL := none, displayName := none }) (lit "p2")
        1700000000000 { recipient := some (lit "p2") }).activeCall.bind
          (callCreated (lit "p1")) = some change ∧
      emittedCalls (lit "p2") [change] =
        [{ id := callId 1700000000000 (lit "p1") (lit "p2"),
           participants := [lit "p1", lit "p2"], status := lit "pending",
           createdBy := lit "p1", endedAt := none }] :=
  initiated_call_reaches_callee { uid := lit "p1", photoURL := none, displayName := none }
    (lit "p2") 1700000000000 { recipient := some (lit "p2") } (lit "p2") rfl (by decide)

/-! ### Call identifiers -/

theorem lit_underscore : lit "_" = [95] := by decide

theorem decimal_units (n : Nat) : ∀ c ∈ decimal n, 48 ≤ c ∧ c ≤ 57 := by
  intro c hc
  unfold decimal at hc
  split at hc
  · simp at hc
    omega
  · simp only [List.mem_map, List.mem_reverse] at hc
    obtain ⟨d, hd, rfl⟩ := hc
    have := Nat.digits_lt_base (by norm_num : 1 < 10) hd
    omega

theorem underscore_not_mem_decimal (n : Nat) : 95 ∉ decimal n := by
  intro h
  have := decimal_units n 95 h
  omega

theorem decimal_injective {n m : Nat} (h : decimal n = decimal m) : n = m := by
  have hmap : ∀ {a b : List Nat},
      a.reverse.map (fun d => d + 48) = b.reverse.map (fun d => d + 48) → a = b := by
    intro a b hab
    have hinj : Function.Injective (fun d : Nat => d + 48) := fun x y hxy => by
      simp only at hxy
      omega
    exact List.reverse_injective (List.map_injective_iff.mpr hinj hab)
  have hzero : ∀ {k : Nat}, k ≠ 0 → (Nat.digits 10 k).reverse.map (fun d => d + 48) ≠ [48] := by
    intro k hk hk48
    have h0 : (Nat.digits 10 k).reverse.map (fun d => d + 48) =
        ([0] : List Nat).reverse.map (fun d => d + 48) := by simpa using hk48
    have hd : Nat.digits 10 k = [0] := hmap h0
    have := Nat.ofDigits_digits 10 k
    rw [hd] at this
    simp at this
    exact hk this.symm
  unfold decimal at h
  by_cases hn : n = 0
  · by_cases hm : m = 0
    · rw [hn, hm]
    · rw [if_pos hn, if_neg hm] at h
      exact absurd h.symm (hzero hm)
  · by_cases hm : m = 0
    · rw [if_neg hn, if_pos hm] at h
      exact absurd h (hzero hn)
    · rw [if_neg hn, if_neg hm] at h
      exact Nat.digits_inj_iff.mp (hmap h)

theorem split_at_underscore : ∀ (xs ys r r' : JsString), 95 ∉ xs → 95 ∉ ys →
    xs ++ 95 :: r = ys ++ 95 :: r' → xs = ys ∧ r = r'
  | [], [], r, r', _, _, h => by simpa using h
  | [], y :: ys, r, r', _, hy, h => by
    simp only [List.nil_append, List.cons_append, List.cons.injEq] at h
    exact absurd (h.1 ▸ List.mem_cons_self _ _) hy
  | x :: xs, [], r, r', hx, _, h => by
    simp only [List.nil_append, List.cons_append, List.cons.injEq] at h
    exact absurd (h.1 ▸ List.mem_cons_self _ _) hx
  | x :: xs, y :: ys, r, r', hx, hy, h => by
    simp only [List.cons_append, List.cons.injEq] at h
    have ih := split_at_underscore xs ys r r'
      (fun hmem => hx (List.mem_cons_of_mem _ hmem))
      (fun hmem => hy (List.mem_cons_of_mem _ hmem)) h.2
    exact ⟨by rw [h.1, ih.1], ih.2⟩

/-- C16, as stated, fails: at one creation time the pairs (`a_b`, `c`) and
(`a`, `b_c`) are different and get the same `callId`. -/
theorem callId_collision :
    ((lit "a_b", lit "c") : JsString × JsString) ≠ (lit "a", lit "b_c") ∧
    callId 5 (lit "a_b") (lit "c") = callId 5 (lit "a") (lit "b_c") := by
  refine ⟨by decide, ?_⟩
  simp [callId, decimal, lit]

theorem callId_injective (t t' : Nat) (a b a' b' : JsString)
    (h : callId t a b = callId t' a' b') :
    t = t' ∧ (95 ∉ a → 95 ∉ a' → a = a' ∧ b = b') := by
  simp only [callId, lit_underscore, List.append_assoc, List.singleton_append] at h
  obtain ⟨h1, h2⟩ := split_at_underscore _ _ _ _ (underscore_not_mem_decimal t)
    (underscore_not_mem_decimal t') h
  refine ⟨decimal_injective h1, ?_⟩
  intro ha ha'
  exact split_at_underscore _ _ _ _ ha ha' h2

/-- C16, amended: two attempts with different creation times get different
`callId`s, whoever the users are; and two attempts with different (caller,
callee) pairs get different `callId`s when neither caller identifier contains
an underscore. -/
theorem callId_unique (t t' : Nat) (a b a' b' : JsString) :
    (t ≠ t' → callId t a b ≠ callId t' a' b') ∧
    (95 ∉ a → 95 ∉ a' → (a, b) ≠ (a', b') → callId t a b ≠ callId t' a' b') := by
  constructor
  · intro ht h
    exact ht (callId_injective _ _ _ _ _ _ h).1
  · intro ha ha' hne h
    obtain ⟨h1, h2⟩ := (callId_injective _ _ _ _ _ _ h).2 ha ha'
    exact hne (by rw [h1, h2])

/-- C16, amended, on two attempts of one pair one millisecond apart, and on
two attempts at one time with callers `p1` and `p3`. -/
theorem callId_unique_witness :
    callId 1700000000000 (lit "p1") (lit "p2") ≠ callId 1700000000001 (lit "p1") (lit "p2") ∧
    callId 1700000000000 (lit "p1") (lit "p2") ≠ callId 1700000000000 (lit "p3") (lit "p2") :=
  ⟨(callId_unique 1700000000000 1700000000001 (lit "p1") (lit "p2") (lit "p1") (lit "p2")).1
     (by decide),
   (callId_unique 1700000000000 1700000000000 (lit "p1") (lit "p2") (lit "p3") (lit "p2")).2
     (by decide) (by decide) (by decide)⟩

/-! ### Room bootstrap -/

theorem resolveName_setDoc :
    resolveName "setDoc" = .error { message := lit "setDoc is not defined" } := by
  rfl

/-- C17: with the room document absent, `createChatDoc` throws the
`ReferenceError` of the unbound name `setDoc` and leaves the store without the
document, whoever the users are. -/
theorem createChatDoc_creates_nothing (localUid remoteUid : JsString) (serverTime : Nat) :
    createChatDoc localUid remoteUid serverTime none =
      (none, .error { message := lit "setDoc is not defined" }) := by
  simp [createChatDoc, createChatDocAfterRead, resolveName_setDoc]

/-- C18: an existing room document is left as it is, without a write; from an
absent document two invocations, one after the other or both reading before
either writes, end with no room document at all. -/
theorem createChatDoc_twice (a b : JsString) (t1 t2 : Nat) :
    (∀ d : RoomData, createChatDoc a b t1 (some d) = (some d, .ok ())) ∧
    (createChatDoc b a t2 (createChatDoc a b t1 none).1).1 = none ∧
    (createChatDocAfterRead b a t2 none (createChatDocAfterRead a b t1 none none).1).1 = none := by
  refine ⟨fun d => rfl, ?_, ?_⟩ <;>
    simp [createChatDoc, createChatDocAfterRead, resolveName_setDoc]

/-! ### Payload shapes -/

theorem sendMessage_payload (C : Cipher) (k : JsString) (user : User) (st : ChatState)
    (env : SendEnv) :
    (∀ cid p, Effect.addMessage cid p ∈ (sendMessage C k user st env).2 →
      (st.file = none → p.imageUrl = some []) ∧
      (∀ f, st.file = some f → ∃ links, env.upload = .ok links ∧ p.imageUrl = links.head?)) ∧
    (∀ cid q, Effect.addMedia cid q ∉ (sendMessage C k user st env).2) := by
  unfold sendMessage
  split
  · simp
  · cases hfile : st.file with
    | none =>
      simp only
      cases C.encrypt env.salt (jsOr (some st.formValue) []) k with
      | error e => simp [sendFailed]
      | ok c =>
        cases env.addDoc with
        | error e =>
          simp only [sendFailed]
          constructor
          · intro cid p h
            simp at h
            simp [h.2]
          · simp
        | ok i =>
          simp only
          constructor
          · intro cid p h
            simp at h
            simp [h.2]
          · simp
    | some f =>
      simp only
      cases hu : env.upload with
      | rejected e => simp [uploadImage, sendFailed]
      | notOk e => simp [uploadImage, sendFailed]
      | ok links =>
        simp only [uploadImage]
        cases C.encrypt env.salt (jsOr (some st.formValue) []) k with
        | error e => simp [sendFailed]
        | ok c =>
          cases env.addDoc with
          | error e =>
            simp only [sendFailed]
            constructor
            · intro cid p h
              simp at h
              simp [h.2]
            · simp
          | ok i =>
            simp only
            constructor
            · intro cid p h
              simp at h
              simp [h.2]
            · simp

/-- C19, as stated, fails: a send with the text "hi" and an attached image
writes one document that carries both the encrypted text and the image
reference. -/
theorem text_and_image_in_one_message :
    Effect.addMessage (lit "a_b")
        { text := 7 :: lit "kl", uid := lit "a", photoURL := none, displayName := none,
          imageUrl := some (lit "https://img/1") } ∈
      (sendMessage shiftCipher (lit "key") { uid := lit "a", photoURL := none, displayName := none }
        { formValue := lit "hi", chatId := lit "a_b",
          file := some { name := lit "cat.png", type := lit "image/png", size := 2048 } }
        { upload := .ok [lit "https://img/1"], salt := 7, addDoc := .ok (lit "m1") }).2 ∧
    carriesText (TextMessage.stored
        { text := 7 :: lit "kl", uid := lit "a", photoURL := none, displayName := none,
          imageUrl := some (lit "https://img/1") } (some 1000)) ∧
    carriesImage (TextMessage.stored
        { text := 7 :: lit "kl", uid := lit "a", photoURL := none, displayName := none,
          imageUrl := some (lit "https://img/1") } (some 1000)) :=
  ⟨by decide, ⟨_, rfl, by decide⟩, ⟨_, rfl, by decide⟩⟩

/-- C19, amended: under a cipher that meets its contract, every document
`sendMessage` writes carries the encrypted text and no media, and carries an
image reference as well exactly when a file was attached and the upload
returned a non-empty first link; `sendMessage` writes no media document.
Every document `handleMediaSelect` writes carries the media of the picker and
neither text nor image reference, and `handleMediaSelect` writes no text
document. -/
theorem payload_shapes (C : Cipher) (hC : C.RoundTrip) (k : JsString) (user : User)
    (st : ChatState) :
    (∀ (env : SendEnv) (cid : JsString) (p : TextMessage) (ts : Option Nat),
      Effect.addMessage cid p ∈ (sendMessage C k user st env).2 →
        carriesText (p.stored ts) ∧ ¬ carriesMedia (p.stored ts) ∧
        (carriesImage (p.stored ts) ↔
          ∃ f links u, st.file = some f ∧ env.upload = .ok links ∧ links.head? = some u ∧
            u ≠ [])) ∧
    (∀ (env : SendEnv) (cid : JsString) (q : MediaMessage),
      Effect.addMedia cid q ∉ (sendMessage C k user st env).2) ∧
    (∀ (media : Media) (ack : Except JsError JsString) (cid : JsString) (q : MediaMessage)
        (ts : Option Nat),
      Effect.addMedia cid q ∈ (handleMediaSelect user st media ack).2 →
        q = { uid := user.uid, photoURL := user.photoURL, displayName := user.displayName,
              mediaType := media.type, mediaUrl := media.url, mediaWidth := media.width,
              mediaHeight := media.height } ∧
        carriesMedia (q.stored ts) ∧ ¬ carriesText (q.stored ts) ∧
        ¬ carriesImage (q.stored ts)) ∧
    (∀ (media : Media) (ack : Except JsError JsString) (cid : JsString) (p : TextMessage),
      Effect.addMessage cid p ∉ (handleMediaSelect user st media ack).2) := by
  refine ⟨?_, ?_, ?_, ?_⟩
  · intro env cid p ts h
    obtain ⟨_, henc, _⟩ := addMessage_mem_sendMessage h
    obtain ⟨hne, _⟩ := hC _ _ _ _ henc
    obtain ⟨hnone, hsome⟩ := (sendMessage_payload C k user st env).1 cid p h
    refine ⟨⟨p.text, rfl, hne⟩, by simp [carriesMedia, TextMessage.stored], ?_⟩
    constructor
    · rintro ⟨u, hu, hune⟩
      simp only [TextMessage.stored] at hu
      cases hfile : st.file with
      | none =>
        rw [hnone hfile] at hu
        exact absurd (Option.some.inj hu).symm hune
      | some f =>
        obtain ⟨links, hl, hp⟩ := hsome f hfile
        exact ⟨f, links, u, rfl, hl, by rw [← hp, hu], hune⟩
    · rintro ⟨f, links, u, hfile, hl, hhead, hune⟩
      obtain ⟨links', hl', hp⟩ := hsome f hfile
      rw [hl] at hl'
      cases hl'
      exact ⟨u, by simp [TextMessage.stored, hp, hhead], hune⟩
  · intro env cid q
    exact (sendMessage_payload C k user st env).2 cid q
  · intro media ack cid q ts h
    have hq : q = { uid := user.uid, photoURL := user.photoURL, displayName := user.displayName,
                    mediaType := media.type, mediaUrl := media.url, mediaWidth := media.width,
                    mediaHeight := media.height } := by
      cases ack <;> simp [handleMediaSelect] at h <;> exact h.2
    refine ⟨hq, by simp [carriesMedia, MediaMessage.stored],
      by simp [carriesText, MediaMessage.stored], by simp [carriesImage, MediaMessage.stored]⟩
  · intro media ack cid p
    cases ack <;> simp [handleMediaSelect]

/-- C19, amended, on a send of "hi" without a file and on a picked GIF. -/
theorem payload_shapes_witness :
    (carriesText (TextMessage.stored
        { text := 7 :: lit "kl", uid := lit "a", photoURL := none, displayName := none,
          imageUrl := some [] } (some 1000)) ∧
      ¬ carriesMedia (TextMessage.stored
        { text := 7 :: lit "kl", uid := lit "a", photoURL := none, displayName := none,
          imageUrl := some [] } (some 1000))) ∧
    (carriesMedia (MediaMessage.stored
        { uid := lit "a", photoURL := none, displayName := none, mediaType := lit "gifs",
          mediaUrl := lit "https://gif/1", mediaWidth := 200, mediaHeight := 100 } (some 2000)) ∧
      ¬ carriesText (MediaMessage.stored
        { uid := lit "a", photoURL := none, displayName := none, mediaType := lit "gifs",
          mediaUrl := lit "https://gif/1", mediaWidth := 200, mediaHeight := 100 }
          (some 2000))) :=
  have h := payload_shapes shiftCipher shiftCipher_roundTrip (lit "key")
    { uid := lit "a", photoURL := none, displayName := none }
    { formValue := lit "hi", chatId := lit "a_b" }
  have h1 := h.1 { upload := .ok [], salt := 7, addDoc := .ok (lit "m1") } (lit "a_b")
    { text := 7 :: lit "kl", uid := lit "a", photoURL := none, displayName := none,
      imageUrl := some [] } (some 1000) (by decide)
  have h2 := h.2.2.1 { type := lit "gifs", url := lit "https://gif/1", width := 200, height := 100 }
    (.ok (lit "m2")) (lit "a_b")
    { uid := lit "a", photoURL := none, displayName := none, mediaType := lit "gifs",
      mediaUrl := lit "https://gif/1", mediaWidth := 200, mediaHeight := 100 } (some 2000)
    (by decide)
  ⟨⟨h1.1, h1.2.1⟩, ⟨h2.2.1, h2.2.2.1⟩⟩

/-! ### Rejecting a call that is over -/

/-- C20, as stated, fails: rejecting a call whose record is already `ended`
(at time 5) turns its status into `rejected` and its `endedAt` into the
current time 9. -/
theorem reject_overwrites_ended :
    (handleRejectCall
        { incomingCall := some { id := lit "c1", participants := [lit "p1", lit "p2"],
                                 status := lit "pending", createdBy := lit "p1",
                                 endedAt := none } }
        9
        (some { participants := [lit "p1", lit "p2"], status := lit "ended",
                createdBy := lit "p1", endedAt := some 5 })).2.2 =
      some { participants := [lit "p1", lit "p2"], status := lit "rejected",
             createdBy := lit "p1", endedAt := some 9 } := by
  decide

/-- C20, amended: rejecting a call raises no error whatever state its record
has reached, and is not a no-op: the one effect is the update, nothing is
logged, the view holds no incoming call, and the record's status becomes
`rejected` and its `endedAt` the current time, also when the record was
already `ended` or `rejected`. -/
theorem reject_is_unconditional (st : ChatState) (call : IncomingCall) (now : Nat)
    (d : CallData) (hc : st.incomingCall = some call) :
    handleRejectCall st now (some d) =
      ({ st with incomingCall := none }, [.updateCall call.id (lit "rejected") now],
        some { d with status := lit "rejected", endedAt := some now }) := by
  simp [handleRejectCall, hc]

/-- C20, amended, on a record that is already `rejected` at time 5. -/
theorem reject_is_unconditional_witness :
    handleRejectCall
        { incomingCall := some { id := lit "c1", participants := [lit "p1", lit "p2"],
                                 status := lit "pending", createdBy := lit "p1",
                                 endedAt := none } }
        9
        (some { participants := [lit "p1", lit "p2"], status := lit "rejected",
                createdBy := lit "p1", endedAt := some 5 }) =
      ({}, [.updateCall (lit "c1") (lit "rejected") 9],
        some { participants := [lit "p1", lit "p2"], status := lit "rejected",
               createdBy := lit "p1", endedAt := some 9 }) :=
  reject_is_unconditional _ _ 9 _ rfl

/-! ### Typing presence -/

theorem mem_clearTimeout {id : Nat} {timers : List (Nat × Nat)} {p : Nat × Nat}
    (h : p ∈ clearTimeout id timers) : p ∈ timers :=
  (List.mem_filter.mp h).1

theorem handleTypingStart_fields (chatId : JsString) (w : TypingWorld) :
    (handleTypingStart chatId w).now = w.now ∧
    (handleTypingStart chatId w).room = w.room ∧
    (handleTypingStart chatId w).writes = w.writes ∧
    (handleTypingStart chatId w).nextTimer = w.nextTimer ∧
    (handleTypingStart chatId w).typingTimeout = w.typingTimeout ∧
    (∀ p ∈ (handleTypingStart chatId w).timers, p ∈ w.timers) ∧
    (∀ t ∈ (handleTypingStart chatId w).tasks, t ∈ w.tasks ∨ t = .afterGetDoc) := by
  unfold handleTypingStart
  by_cases hc : chatId = []
  · simp only [hc, if_true, true_and]
    exact ⟨fun p hp => hp, fun t ht => Or.inl ht⟩
  · simp only [hc, if_false, true_and]
    constructor
    · intro p hp
      cases htt : w.typingTimeout with
      | none => simpa [htt] using hp
      | some id =>
        simp only [htt] at hp
        by_cases hid : id = 0
        · simpa [hid] using hp
        · simp only [ne_eq, hid, not_false_eq_true, if_true] at hp
          exact mem_clearTimeout hp
    · intro t ht
      simpa using ht

theorem NoExpiryBefore3000_step (chatId localUid remoteUid : JsString) (serverTime : Nat)
    (w : TypingWorld) (e : TimedAction) (h : NoExpiryBefore3000 w) :
    NoExpiryBefore3000 (typingStep chatId localUid remoteUid serverTime w e) := by
  obtain ⟨hnow, htim, hclr, hexp⟩ := h
  obtain ⟨time, action⟩ := e
  have hmax : 1000 ≤ max w.now time := le_trans hnow (le_max_left _ _)
  have hexp' : TypingTask.expiryAfterGetDoc ∈ w.tasks → 3000 ≤ max w.now time :=
    fun hm => le_trans (hexp hm) (le_max_left _ _)
  cases action with
  | keystroke =>
    simp only [typingStep]
    obtain ⟨f1, _, f3, _, _, f6, f7⟩ :=
      handleTypingStart_fields chatId { w with now := max w.now time }
    refine ⟨by rw [f1]; exact hmax, fun p hp => htim p (f6 p hp), ?_, ?_⟩
    · rw [f3]
      exact hclr
    · intro hm
      rw [f1]
      rcases f7 _ hm with h1 | h1
      · exact hexp' h1
      · cases h1
  | resume i =>
    simp only [typingStep]
    cases hti : w.tasks[i]? with
    | none => exact ⟨hmax, htim, hclr, hexp'⟩
    | some task =>
      simp only
      have hsub : ∀ t ∈ w.tasks.eraseIdx i, t ∈ w.tasks := fun t ht => List.mem_of_mem_eraseIdx ht
      cases task with
      | afterGetDoc =>
        simp only [resumeTask, resolveName_setDoc]
        cases hr : w.room with
        | none =>
          simp only
          exact ⟨hmax, htim, hclr, fun hm => hexp' (hsub _ hm)⟩
        | some r =>
          simp only
          refine ⟨hmax, htim, ?_, ?_⟩
          · intro t ht
            simp only [List.mem_append, List.mem_singleton, Prod.mk.injEq] at ht
            rcases ht with ht | ht
            · exact hclr t ht
            · exact absurd ht.2 (by simp)
          · intro hm
            simp only [List.mem_append, List.mem_singleton] at hm
            rcases hm with hm | hm
            · exact hexp' (hsub _ hm)
            · cases hm
      | afterWrite =>
        simp only [resumeTask]
        refine ⟨hmax, ?_, hclr, fun hm => hexp' (hsub _ hm)⟩
        intro p hp
        simp only [List.mem_append, List.mem_singleton] at hp
        rcases hp with hp | hp
        · exact htim p hp
        · subst hp
          simp only
          omega
      | expiryAfterGetDoc =>
        have hthree : 3000 ≤ max w.now time :=
          hexp' (List.getElem?_mem hti)
        simp only [resumeTask]
        cases hr : w.room with
        | none =>
          simp only
          exact ⟨hmax, htim, hclr, fun _ => hthree⟩
        | some r =>
          simp only
          refine ⟨hmax, htim, ?_, fun _ => hthree⟩
          intro t ht
          simp only [List.mem_append, List.mem_singleton, Prod.mk.injEq] at ht
          rcases ht with ht | ht
          · exact hclr t ht
          · rw [ht.1]
            exact hthree
  | fire id =>
    simp only [typingStep, fireTimer]
    split
    · next hany =>
      simp only [List.any_eq_true, Bool.and_eq_true, beq_iff_eq, decide_eq_true_eq] at hany
      obtain ⟨p, hp, _, hdue⟩ := hany
      have hthree : 3000 ≤ max w.now time := le_trans (htim p hp) hdue
      exact ⟨hmax, fun q hq => htim q (mem_clearTimeout hq), hclr, fun _ => hthree⟩
    · exact ⟨hmax, htim, hclr, hexp'⟩

theorem BeforeSecondKey_step (chatId localUid remoteUid : JsString) (serverTime : Nat)
    (w : TypingWorld) (e : TimedAction) (h : BeforeSecondKey w) (ht : e.time ≤ 1000)
    (hk : e.action ≠ .keystroke) :
    BeforeSecondKey (typingStep chatId localUid remoteUid serverTime w e) := by
  obtain ⟨hnow, hnext, hclr, hexp, hlen, htim⟩ := h
  obtain ⟨time, action⟩ := e
  simp only at ht hk
  have hmax : max w.now time ≤ 1000 := max_le hnow ht
  cases action with
  | keystroke => exact absurd rfl hk
  | resume i =>
    simp only [typingStep]
    cases hti : w.tasks[i]? with
    | none => exact ⟨hmax, hnext, hclr, hexp, hlen, htim⟩
    | some task =>
      simp only
      have hmem : task ∈ w.tasks := List.getElem?_mem hti
      have hpos : 0 < w.tasks.length := List.length_pos_of_mem hmem
      have htimers : w.timers = [] := List.eq_nil_of_length_eq_zero (by omega)
      have hi : i < w.tasks.length := by
        rcases Nat.lt_or_ge i w.tasks.length with hlt | hge
        · exact hlt
        · rw [List.getElem?_eq_none hge] at hti
          cases hti
      have herase : w.tasks.eraseIdx i = [] :=
        List.eq_nil_of_length_eq_zero (by rw [List.length_eraseIdx_of_lt hi]; omega)
      cases task with
      | afterGetDoc =>
        simp only [resumeTask, resolveName_setDoc, herase]
        cases hr : w.room with
        | none =>
          simp only
          exact ⟨hmax, hnext, hclr, by simp, by simp [htimers], by simp [htimers]⟩
        | some r =>
          simp only
          refine ⟨hmax, hnext, ?_, by simp, by simp [htimers], by simp [htimers]⟩
          intro t hmemw
          simp only [List.mem_append, List.mem_singleton, Prod.mk.injEq] at hmemw
          rcases hmemw with h1 | h1
          · exact hclr t h1
          · exact absurd h1.2 (by simp)
      | afterWrite =>
        simp only [resumeTask, herase, htimers]
        refine ⟨hmax, by simp, hclr, by simp, by simp, ?_⟩
        intro p hp
        simp only [List.nil_append, List.mem_singleton] at hp
        subst hp
        simp only
        exact ⟨trivial, by omega, by omega⟩
      | expiryAfterGetDoc => exact absurd hmem hexp
  | fire id =>
    simp only [typingStep, fireTimer]
    split
    · next hany =>
      simp only [List.any_eq_true, Bool.and_eq_true, beq_iff_eq, decide_eq_true_eq] at hany
      obtain ⟨p, hp, _, hdue⟩ := hany
      have := (htim p hp).2.2
      omega
    · exact ⟨hmax, hnext, hclr, hexp, hlen, htim⟩

theorem BeforeSecondKey_run (chatId localUid remoteUid : JsString) (serverTime : Nat)
    (s : List TimedAction) :
    ∀ w : TypingWorld, BeforeSecondKey w →
      (∀ e ∈ s, e.time ≤ 1000 ∧ e.action ≠ .keystroke) →
      BeforeSecondKey (typingRun chatId localUid remoteUid serverTime w s) := by
  induction s with
  | nil => intro w h _; exact h
  | cons e rest ih =>
    intro w h hs
    have he := hs e (List.mem_cons_self _ _)
    exact ih _ (BeforeSecondKey_step chatId localUid remoteUid serverTime w e h he.1 he.2)
      (fun x hx => hs x (List.mem_cons_of_mem _ hx))

theorem BeforeSecondKey_first (chatId localUid remoteUid : JsString) (serverTime : Nat)
    (room : Option RoomData) (hchat : chatId ≠ []) :
    BeforeSecondKey (typingStep chatId localUid remoteUid serverTime { room := room }
      { time := 0, action := .keystroke }) := by
  simp [typingStep, handleTypingStart, hchat, BeforeSecondKey]

theorem second_key (chatId localUid remoteUid : JsString) (serverTime : Nat)
    (w : TypingWorld) (h : BeforeSecondKey w) (hchat : chatId ≠ []) :
    NoExpiryBefore3000 (typingStep chatId localUid remoteUid serverTime w
        { time := 1000, action := .keystroke }) ∧
    ClearedOrPending (typingStep chatId localUid remoteUid serverTime w
        { time := 1000, action := .keystroke }) := by
  obtain ⟨hnow, hnext, hclr, hexp, hlen, htim⟩ := h
  have hmax : max w.now 1000 = 1000 := max_eq_right hnow
  have htimers : ∀ p, p ∉ (handleTypingStart chatId { w with now := max w.now 1000 }).timers := by
    intro p hp
    simp only [handleTypingStart, hchat, if_false] at hp
    cases htt : w.typingTimeout with
    | none =>
      simp only [htt] at hp
      have := (htim p hp).1
      rw [htt] at this
      cases this
    | some id =>
      simp only [htt] at hp
      by_cases hid : id = 0
      · simp only [hid, ne_eq, not_true_eq_false, if_false] at hp
        have h1 := (htim p hp).1
        have h2 := (htim p hp).2.1
        rw [htt, hid] at h1
        exact h2 (Option.some.inj h1).symm
      · simp only [ne_eq, hid, not_false_eq_true, if_true] at hp
        have hp' := List.mem_filter.mp hp
        have h1 := (htim p hp'.1).1
        rw [htt] at h1
        have : p.1 = id := (Option.some.inj h1).symm
        simp [this] at hp'
  obtain ⟨f1, _, f3, _, _, _, f7⟩ :=
    handleTypingStart_fields chatId { w with now := max w.now 1000 }
  constructor
  · simp only [typingStep]
    refine ⟨by rw [f1]; simp, fun p hp => absurd hp (htimers p), ?_, ?_⟩
    · rw [f3]
      intro t ht
      exact absurd ht (hclr t)
    · intro hm
      rcases f7 _ hm with h1 | h1
      · exact absurd h1 hexp
      · cases h1
  · left
    simp [typingStep, handleTypingStart, hchat]

theorem ClearedOrPending_step (chatId localUid remoteUid : JsString) (serverTime : Nat)
    (w : TypingWorld) (e : TimedAction) (h : ClearedOrPending w)
    (hk : e.action ≠ .keystroke) :
    ClearedOrPending (typingStep chatId localUid remoteUid serverTime w e) := by
  obtain ⟨time, action⟩ := e
  simp only at hk
  cases action with
  | keystroke => exact absurd rfl hk
  | resume i =>
    simp only [typingStep]
    cases hti : w.tasks[i]? with
    | none => exact h
    | some task =>
      simp only
      cases task with
      | afterGetDoc =>
        simp only [resumeTask, resolveName_setDoc]
        cases hr : w.room with
        | none =>
          right; right
          simp [typingField]
        | some r =>
          left
          simp
      | afterWrite =>
        right; left
        simp [resumeTask]
      | expiryAfterGetDoc =>
        right; right
        simp only [resumeTask]
        cases hr : w.room with
        | none => simp [typingField]
        | some r => simp [typingField]
  | fire id =>
    simp only [typingStep, fireTimer]
    split
    · left
      simp
    · exact h

theorem after_second_key_run (chatId localUid remoteUid : JsString) (serverTime : Nat)
    (s : List TimedAction) :
    ∀ w : TypingWorld, NoExpiryBefore3000 w → ClearedOrPending w →
      (∀ e ∈ s, e.action ≠ .keystroke) →
      NoExpiryBefore3000 (typingRun chatId localUid remoteUid serverTime w s) ∧
      ClearedOrPending (typingRun chatId localUid remoteUid serverTime w s) := by
  induction s with
  | nil => intro w h1 h2 _; exact ⟨h1, h2⟩
  | cons e rest ih =>
    intro w h1 h2 hs
    exact ih _ (NoExpiryBefore3000_step chatId localUid remoteUid serverTime w e h1)
      (ClearedOrPending_step chatId localUid remoteUid serverTime w e h2
        (hs e (List.mem_cons_self _ _)))
      (fun x hx => hs x (List.mem_cons_of_mem _ hx))

theorem drain (chatId localUid remoteUid : JsString) (serverTime : Nat) :
    ∀ (n : Nat) (w : TypingWorld), pendingWork w ≤ n →
      ∃ s : List TimedAction, (∀ e ∈ s, e.action ≠ .keystroke) ∧
        (typingRun chatId localUid remoteUid serverTime w s).tasks = [] ∧
        (typingRun chatId localUid remoteUid serverTime w s).timers = [] := by
  intro n
  induction n with
  | zero =>
    intro w hw
    refine ⟨[], by simp, ?_, ?_⟩
    · cases ht : w.tasks with
      | nil => simpa [typingRun] using ht
      | cons t rest =>
        simp only [pendingWork, ht, List.map_cons, List.sum_cons] at hw
        cases t <;> simp only [taskWeight] at hw <;> omega
    · cases ht : w.timers with
      | nil => simpa [typingRun] using ht
      | cons t rest =>
        simp only [pendingWork, ht, List.length_cons] at hw
        omega
  | succ n ih =>
    intro w hw
    have hcons : ∀ e : TimedAction, e.action ≠ .keystroke →
        pendingWork (typingStep chatId localUid remoteUid serverTime w e) ≤ n →
        ∃ s : List TimedAction, (∀ e ∈ s, e.action ≠ .keystroke) ∧
          (typingRun chatId localUid remoteUid serverTime w s).tasks = [] ∧
          (typingRun chatId localUid remoteUid serverTime w s).timers = [] := by
      intro e he hle
      obtain ⟨s, hs1, hs2, hs3⟩ := ih _ hle
      refine ⟨e :: s, ?_, hs2, hs3⟩
      intro x hx
      rcases List.mem_cons.mp hx with h | h
      · rw [h]; exact he
      · exact hs1 x h
    cases ht : w.tasks with
    | cons t rest =>
      apply hcons { time := w.now, action := .resume 0 } (by simp)
      simp only [pendingWork, ht, List.map_cons, List.sum_cons] at hw
      simp only [typingStep, ht, List.getElem?_cons_zero, List.eraseIdx_cons_zero]
      cases t with
      | afterGetDoc =>
        simp only [resumeTask, resolveName_setDoc, taskWeight] at hw ⊢
        cases hr : w.room with
        | none =>
          simp only [pendingWork]
          omega
        | some r =>
          simp only [pendingWork, List.map_append, List.sum_append, List.map_cons,
            List.map_nil, List.sum_cons, List.sum_nil, taskWeight]
          omega
      | afterWrite =>
        simp only [resumeTask, taskWeight, pendingWork, List.length_append,
          List.length_singleton] at hw ⊢
        omega
      | expiryAfterGetDoc =>
        simp only [resumeTask, taskWeight] at hw ⊢
        cases hr : w.room with
        | none =>
          simp only [pendingWork]
          omega
        | some r =>
          simp only [pendingWork]
          omega
    | nil =>
      cases htm : w.timers with
      | nil => exact ⟨[], by simp, by simpa [typingRun] using ht, by simpa [typingRun] using htm⟩
      | cons p rest =>
        apply hcons { time := max w.now p.2, action := .fire p.1 } (by simp)
        simp only [pendingWork, ht, htm, List.map_nil, List.sum_nil, List.length_cons] at hw
        have hany : (p :: rest).any
            (fun q => q.1 == p.1 && decide (q.2 ≤ max w.now (max w.now p.2))) = true := by
          simp
        simp only [typingStep, fireTimer, htm, hany, if_true, ht, pendingWork, List.nil_append,
          List.map_cons, List.map_nil, List.sum_cons, List.sum_nil, taskWeight]
        have hlen : (clearTimeout p.1 (p :: rest)).length ≤ rest.length := by
          simp only [clearTimeout, List.filter_cons, bne_self_eq_false, Bool.false_eq_true,
            if_false]
          exact List.length_filter_le _ _
        omega

/-- C12: keystrokes at 0 ms and 1000 ms in a room whose id is set, and no
other keystroke, under any schedule of store answers and timer callbacks.
Before the second keystroke nothing clears the `typing` field; whatever
follows it, every clearing of the field happens at 3000 ms or later; once no
continuation and no timer is left, the field reads as none, cleared (when the
room exists) by a timer callback at 3000 ms or later; and every such run can
be continued, without a keystroke, to a point where nothing is left and the
field reads as none. -/
theorem typing_cleared_not_before_3000 (chatId localUid remoteUid : JsString)
    (serverTime : Nat) (room : Option RoomData) (s1 s2 : List TimedAction)
    (hchat : chatId ≠ [])
    (h1 : ∀ e ∈ s1, e.time ≤ 1000 ∧ e.action ≠ .keystroke)
    (h2 : ∀ e ∈ s2, e.action ≠ .keystroke) :
    (∀ t, (t, TypingWrite.clear) ∉
      (typingRun chatId localUid remoteUid serverTime { room := room }
        ({ time := 0, action := .keystroke } :: s1)).writes) ∧
    (∀ t, (t, TypingWrite.clear) ∈
      (typingRun chatId localUid remoteUid serverTime { room := room }
        ({ time := 0, action := .keystroke } :: s1 ++
          { time := 1000, action := .keystroke } :: s2)).writes → 3000 ≤ t) ∧
    ((typingRun chatId localUid remoteUid serverTime { room := room }
        ({ time := 0, action := .keystroke } :: s1 ++
          { time := 1000, action := .keystroke } :: s2)).tasks = [] →
      (typingRun chatId localUid remoteUid serverTime { room := room }
        ({ time := 0, action := .keystroke } :: s1 ++
          { time := 1000, action := .keystroke } :: s2)).timers = [] →
      typingField (typingRun chatId localUid remoteUid serverTime { room := room }
        ({ time := 0, action := .keystroke } :: s1 ++
          { time := 1000, action := .keystroke } :: s2)).room = none ∧
      ((typingRun chatId localUid remoteUid serverTime { room := room }
        ({ time := 0, action := .keystroke } :: s1 ++
          { time := 1000, action := .keystroke } :: s2)).room.isSome = true →
        ∃ t, 3000 ≤ t ∧ (t, TypingWrite.clear) ∈
          (typingRun chatId localUid remoteUid serverTime { room := room }
            ({ time := 0, action := .keystroke } :: s1 ++
              { time := 1000, action := .keystroke } :: s2)).writes)) ∧
    (∃ s3 : List TimedAction, (∀ e ∈ s3, e.action ≠ .keystroke) ∧
      (typingRun chatId localUid remoteUid serverTime { room := room }
        ({ time := 0, action := .keystroke } :: s1 ++
          { time := 1000, action := .keystroke } :: (s2 ++ s3))).tasks = [] ∧
      (typingRun chatId localUid remoteUid serverTime { room := room }
        ({ time := 0, action := .keystroke } :: s1 ++
          { time := 1000, action := .keystroke } :: (s2 ++ s3))).timers = [] ∧
      typingField (typingRun chatId localUid remoteUid serverTime { room := room }
        ({ time := 0, action := .keystroke } :: s1 ++
          { time := 1000, action := .keystroke } :: (s2 ++ s3))).room = none) := by
  have hA := BeforeSecondKey_run chatId localUid remoteUid serverTime s1 _
    (BeforeSecondKey_first chatId localUid remoteUid serverTime room hchat) h1
  have hrun1 : typingRun chatId localUid remoteUid serverTime { room := room }
      ({ time := 0, action := .keystroke } :: s1) =
      typingRun chatId localUid remoteUid serverTime
        (typingStep chatId localUid remoteUid serverTime { room := room }
          { time := 0, action := .keystroke }) s1 := rfl
  have hrun2 : typingRun chatId localUid remoteUid serverTime { room := room }
      ({ time := 0, action := .keystroke } :: s1 ++
        { time := 1000, action := .keystroke } :: s2) =
      typingRun chatId localUid remoteUid serverTime
        (typingStep chatId localUid remoteUid serverTime
          (typingRun chatId localUid remoteUid serverTime
            (typingStep chatId localUid remoteUid serverTime { room := room }
              { time := 0, action := .keystroke }) s1)
          { time := 1000, action := .keystroke }) s2 := by
    simp [typingRun, List.foldl_append]
  obtain ⟨hB, hC⟩ := second_key chatId localUid remoteUid serverTime _ hA hchat
  obtain ⟨hD, hE⟩ := after_second_key_run chatId localUid remoteUid serverTime s2 _ hB hC h2
  have hrun3 : ∀ s3 : List TimedAction,
      typingRun chatId localUid remoteUid serverTime { room := room }
        ({ time := 0, action := .keystroke } :: s1 ++
          { time := 1000, action := .keystroke } :: (s2 ++ s3)) =
      typingRun chatId localUid remoteUid serverTime
        (typingRun chatId localUid remoteUid serverTime { room := room }
          ({ time := 0, action := .keystroke } :: s1 ++
            { time := 1000, action := .keystroke } :: s2)) s3 := by
    intro s3
    simp [typingRun, List.foldl_append]
  refine ⟨?_, ?_, ?_, ?_⟩
  · rw [hrun1]
    exact hA.2.2.1
  · rw [hrun2]
    exact hD.2.2.1
  · rw [hrun2]
    intro ht hm
    rcases hE with h | h | h
    · exact absurd ht h
    · exact absurd hm h
    · refine ⟨h.1, fun hs => ?_⟩
      obtain ⟨t, hmem⟩ := h.2 hs
      exact ⟨t, hD.2.2.1 t hmem, hmem⟩
  · obtain ⟨s3, hs3, ht3, hm3⟩ := drain chatId localUid remoteUid serverTime _
      (typingRun chatId localUid remoteUid serverTime { room := room }
        ({ time := 0, action := .keystroke } :: s1 ++
          { time := 1000, action := .keystroke } :: s2)) (le_refl _)
    refine ⟨s3, hs3, ?_, ?_, ?_⟩
    · rw [hrun3]; exact ht3
    · rw [hrun3]; exact hm3
    · rw [hrun3]
      rw [hrun2] at ht3 hm3 ⊢
      obtain ⟨_, hF⟩ := after_second_key_run chatId localUid remoteUid serverTime s3 _ hD hE hs3
      rcases hF with h | h | h
      · exact absurd ht3 h
      · exact absurd hm3 h
      · exact h.1

/-- C12 on a run where the store answers each request after 100 ms: the
timer of the first keystroke is cleared by the second, the timer of the
second is due at 3200 ms and its callback clears the field at 3300 ms. -/
theorem typing_cleared_not_before_3000_witness :
    (∀ e ∈ ([{ time := 100, action := .resume 0 }, { time := 200, action := .resume 0 }] :
        List TimedAction), e.time ≤ 1000 ∧ e.action ≠ .keystroke) ∧
    (3300, TypingWrite.clear) ∈
      (typingRun (lit "a_b") (lit "a") (lit "b") 1
        { room := some { participants := [lit "a", lit "b"], createdAt := some 1,
                         lastMessage := none, typing := none } }
        ({ time := 0, action := .keystroke } ::
          [{ time := 100, action := .resume 0 }, { time := 200, action := .resume 0 }] ++
          { time := 1000, action := .keystroke } ::
          [{ time := 1100, action := .resume 0 }, { time := 1200, action := .resume 0 },
           { time := 3200, action := .fire 2 }, { time := 3300, action := .resume 0 }])).writes ∧
    typingField
      (typingRun (lit "a_b") (lit "a") (lit "b") 1
        { room := some { participants := [lit "a", lit "b"], createdAt := some 1,
                         lastMessage := none, typing := none } }
        ({ time := 0, action := .keystroke } ::
          [{ time := 100, action := .resume 0 }, { time := 200, action := .resume 0 }] ++
          { time := 1000, action := .keystroke } ::
          [{ time := 1100, action := .resume 0 }, { time := 1200, action := .resume 0 },
           { time := 3200, action := .fire 2 }, { time := 3300, action := .resume 0 }])).room =
      none :=
  have h := typing_cleared_not_before_3000 (lit "a_b") (lit "a") (lit "b") 1
    (some { participants := [lit "a", lit "b"], createdAt := some 1, lastMessage := none,
            typing := none })
    [{ time := 100, action := .resume 0 }, { time := 200, action := .resume 0 }]
    [{ time := 1100, action := .resume 0 }, { time := 1200, action := .resume 0 },
     { time := 3200, action := .fire 2 }, { time := 3300, action := .resume 0 }]
    (by decide) (by decide) (by decide)
  ⟨by decide, by decide, (h.2.2.1 (by decide) (by decide)).1⟩

/-- C13: keystrokes at 0 ms and 100 ms, the store answering after the second
keystroke. The second keystroke finds no timer to clear, so both timers get
armed (due 2300 and 2400). At 2350 ms the callback of the first timer clears
the `typing` value the second keystroke wrote at 250 ms, while the timer of
the second keystroke is still armed. -/
theorem stale_expiry_clears_newer_typing :
    (typingRun (lit "a_b") (lit "a") (lit "b") 1
        { room := some { participants := [lit "a", lit "b"], createdAt := some 1,
                         lastMessage := none, typing := none } }
        [{ time := 0, action := .keystroke }, { time := 100, action := .keystroke },
         { time := 150, action := .resume 0 }, { time := 250, action := .resume 0 },
         { time := 300, action := .resume 0 }, { time := 400, action := .resume 0 }]) =
      { now := 400
        room := some { participants := [lit "a", lit "b"], createdAt := some 1,
                       lastMessage := none, typing := some (lit "a") }
        typingTimeout := some 2
        timers := [(1, 2300), (2, 2400)]
        nextTimer := 3
        tasks := []
        writes := [(150, .set (lit "a")), (250, .set (lit "a"))]
        errors := [] } ∧
    (typingRun (lit "a_b") (lit "a") (lit "b") 1
        { room := some { participants := [lit "a", lit "b"], createdAt := some 1,
                         lastMessage := none, typing := none } }
        [{ time := 0, action := .keystroke }, { time := 100, action := .keystroke },
         { time := 150, action := .resume 0 }, { time := 250, action := .resume 0 },
         { time := 300, action := .resume 0 }, { time := 400, action := .resume 0 },
         { time := 2300, action := .fire 1 }, { time := 2350, action := .resume 0 }]) =
      { now := 2350
        room := some { participants := [lit "a", lit "b"], createdAt := some 1,
                       lastMessage := none, typing := none }
        typingTimeout := some 2
        timers := [(2, 2400)]
        nextTimer := 3
        tasks := []
        writes := [(150, .set (lit "a")), (250, .set (lit "a")), (2350, .clear)]
        errors := [] } := by
  decide

/-! ### Typing in a room that does not exist -/

theorem RoomAbsent_step (chatId localUid remoteUid : JsString) (serverTime : Nat)
    (w : TypingWorld) (e : TimedAction) (h : RoomAbsent w) :
    RoomAbsent (typingStep chatId localUid remoteUid serverTime w e) := by
  obtain ⟨hroom, htim, hwr, htt, htasks⟩ := h
  obtain ⟨time, action⟩ := e
  cases action with
  | keystroke =>
    simp only [typingStep, handleTypingStart]
    by_cases hc : chatId = []
    · simp only [hc, if_true]
      exact ⟨hroom, htim, hwr, htt, htasks⟩
    · simp only [hc, if_false, htt]
      refine ⟨hroom, htim, hwr, rfl, ?_⟩
      intro t ht
      simp only [List.mem_append, List.mem_singleton] at ht
      rcases ht with ht | ht
      · exact htasks t ht
      · exact ht
  | resume i =>
    simp only [typingStep]
    cases hti : w.tasks[i]? with
    | none => exact ⟨hroom, htim, hwr, htt, htasks⟩
    | some task =>
      have htask : task = .afterGetDoc := htasks task (List.getElem?_mem hti)
      subst htask
      simp only [resumeTask, resolveName_setDoc, hroom]
      exact ⟨rfl, htim, hwr, htt, fun t ht => htasks t (List.mem_of_mem_eraseIdx ht)⟩
  | fire id =>
    simp only [typingStep, fireTimer, htim, List.any_nil, Bool.false_eq_true, if_false]
    exact ⟨hroom, rfl, hwr, htt, htasks⟩

theorem RoomAbsent_run (chatId localUid remoteUid : JsString) (serverTime : Nat)
    (s : List TimedAction) :
    ∀ w : TypingWorld, RoomAbsent w →
      RoomAbsent (typingRun chatId localUid remoteUid serverTime w s) := by
  induction s with
  | nil => intro w h; exact h
  | cons e rest ih =>
    intro w h
    exact ih _ (RoomAbsent_step chatId localUid remoteUid serverTime w e h)

/-- C21: in a room whose document does not exist, whatever the schedule of
keystrokes, store answers and timer callbacks, the room is never created,
`typing` is never written and no timer is ever armed; a keystroke whose read
has been answered ends in the `catch` of `handleTyping` with the
`ReferenceError` of the unbound name `setDoc` logged. -/
theorem typing_in_absent_room_is_lost (chatId localUid remoteUid : JsString) (serverTime : Nat)
    (s : List TimedAction) :
    (typingRun chatId localUid remoteUid serverTime { room := none } s).room = none ∧
    (typingRun chatId localUid remoteUid serverTime { room := none } s).writes = [] ∧
    (typingRun chatId localUid remoteUid serverTime { room := none } s).timers = [] ∧
    (typingRun chatId localUid remoteUid serverTime { room := none } s).typingTimeout = none ∧
    typingRun (lit "a_b") localUid remoteUid serverTime { room := none }
        [{ time := 0, action := .keystroke }, { time := 50, action := .resume 0 }] =
      { now := 50, room := none, errors := [lit "Error updating typing status:"] } := by
  obtain ⟨h1, h2, h3, h4, _⟩ := RoomAbsent_run chatId localUid remoteUid serverTime s
    { room := none } ⟨rfl, rfl, rfl, rfl, by simp⟩
  exact ⟨h1, h3, h2, h4, by rfl⟩

/-! ### Pending text and file after a send -/

theorem sendMessage_pending (C : Cipher) (k : JsString) (user : User) (st : ChatState)
    (env : SendEnv) :
    ((∃ cid p, Effect.addMessage cid p ∈ (sendMessage C k user st env).2) ∧
        (∃ id, env.addDoc = .ok id) →
      (sendMessage C k user st env).1.formValue = [] ∧
      (sendMessage C k user st env).1.file = none) ∧
    ((∀ cid p, Effect.addMessage cid p ∉ (sendMessage C k user st env).2) ∨
        (∃ e, env.addDoc = .error e) →
      (sendMessage C k user st env).1.formValue = st.formValue ∧
      (sendMessage C k user st env).1.file = st.file) := by
  unfold sendMessage
  split
  · simp
  · cases hfile : st.file with
    | none =>
      simp only
      cases C.encrypt env.salt (jsOr (some st.formValue) []) k with
      | error e => simp [sendFailed, hfile]
      | ok c =>
        cases env.addDoc with
        | error e => simp [sendFailed, hfile]
        | ok i => simp
    | some f =>
      simp only
      cases env.upload with
      | rejected e => simp [uploadImage, sendFailed, hfile]
      | notOk e => simp [uploadImage, sendFailed, hfile]
      | ok links =>
        simp only [uploadImage]
        cases C.encrypt env.salt (jsOr (some st.formValue) []) k with
        | error e => simp [sendFailed, hfile]
        | ok c =>
          cases env.addDoc with
          | error e => simp [sendFailed, hfile]
          | ok i => simp

/-- C22: when the run of `sendMessage` reaches `addDoc` and the store confirms
the write, the pending text is `''` and the pending file `null` afterwards;
when `addDoc` is not reached (the guard, a failed upload, a failed
encryption) or the store rejects the write, the pending text and file are the
ones before the call. -/
theorem pending_cleared_on_confirmed_write (C : Cipher) (k : JsString) (user : User)
    (st : ChatState) (env : SendEnv) :
    ((∃ cid p, Effect.addMessage cid p ∈ (sendMessage C k user st env).2) ∧
        (∃ id, env.addDoc = .ok id) →
      (sendMessage C k user st env).1.formValue = [] ∧
      (sendMessage C k user st env).1.file = none) ∧
    ((∀ cid p, Effect.addMessage cid p ∉ (sendMessage C k user st env).2) ∨
        (∃ e, env.addDoc = .error e) →
      (sendMessage C k user st env).1.formValue = st.formValue ∧
      (sendMessage C k user st env).1.file = st.file) ∧
    (∀ f e, st.file = some f → (uploadImage st f env.upload).2.2 = .error e →
      (sendMessage C k user st env).1.formValue = st.formValue ∧
      (sendMessage C k user st env).1.file = st.file) := by
  obtain ⟨h1, h2⟩ := sendMessage_pending C k user st env
  refine ⟨h1, h2, ?_⟩
  intro f e hf he
  apply h2
  left
  intro cid p hmem
  have h := ((addMessage_mem_sendMessage hmem).2.2 f hf).1
  rw [he] at h
  cases h

/-- C22 on a confirmed send of "hi" with an image, and on the same send with
the write rejected. -/
theorem pending_cleared_on_confirmed_write_witness :
    ((sendMessage shiftCipher (lit "key") { uid := lit "a", photoURL := none, displayName := none }
        { formValue := lit "hi", chatId := lit "a_b",
          file := some { name := lit "cat.png", type := lit "image/png", size := 2048 } }
        { upload := .ok [lit "https://img/1"], salt := 7, addDoc := .ok (lit "m1") }).1.formValue
        = [] ∧
      (sendMessage shiftCipher (lit "key") { uid := lit "a", photoURL := none, displayName := none }
        { formValue := lit "hi", chatId := lit "a_b",
          file := some { name := lit "cat.png", type := lit "image/png", size := 2048 } }
        { upload := .ok [lit "https://img/1"], salt := 7, addDoc := .ok (lit "m1") }).1.file
        = none) ∧
    ((sendMessage shiftCipher (lit "key") { uid := lit "a", photoURL := none, displayName := none }
        { formValue := lit "hi", chatId := lit "a_b",
          file := some { name := lit "cat.png", type := lit "image/png", size := 2048 } }
        { upload := .ok [lit "https://img/1"], salt := 7,
          addDoc := .error { message := lit "offline" } }).1.formValue = lit "hi" ∧
      (sendMessage shiftCipher (lit "key") { uid := lit "a", photoURL := none, displayName := none }
        { formValue := lit "hi", chatId := lit "a_b",
          file := some { name := lit "cat.png", type := lit "image/png", size := 2048 } }
        { upload := .ok [lit "https://img/1"], salt := 7,
          addDoc := .error { message := lit "offline" } }).1.file =
        some { name := lit "cat.png", type := lit "image/png", size := 2048 }) :=
  ⟨(pending_cleared_on_confirmed_write shiftCipher (lit "key")
      { uid := lit "a", photoURL := none, displayName := none }
      { formValue := lit "hi", chatId := lit "a_b",
        file := some { name := lit "cat.png", type := lit "image/png", size := 2048 } }
      { upload := .ok [lit "https://img/1"], salt := 7, addDoc := .ok (lit "m1") }).1
      ⟨⟨lit "a_b",
        { text := 7 :: lit "kl", uid := lit "a", photoURL := none, displayName := none,
          imageUrl := some (lit "https://img/1") }, by decide⟩, ⟨lit "m1", rfl⟩⟩,
   (pending_cleared_on_confirmed_write shiftCipher (lit "key")
      { uid := lit "a", photoURL := none, displayName := none }
      { formValue := lit "hi", chatId := lit "a_b",
        file := some { name := lit "cat.png", type := lit "image/png", size := 2048 } }
      { upload := .ok [lit "https://img/1"], salt := 7,
        addDoc := .error { message := lit "offline" } }).2.1
      (Or.inr ⟨{ message := lit "offline" }, rfl⟩)⟩

/-! ### The upload -/

/-- C23: on an OK response `uploadImage` returns the first link of the body;
on a non-OK response it throws an error whose message is the `error` field of
the body, or `'Upload failed'` when that field is missing or empty; either
way the one effect before a log line is the `fetch`, and `uploading` is false
when it finishes. -/
theorem uploadImage_result (st : ChatState) (f : FileObj) :
    (∀ links : List JsString,
      uploadImage st f (.ok links) =
        ({ st with uploading := false }, [.fetchUpload f], .ok links.head?)) ∧
    (∀ error : Option JsString,
      uploadImage st f (.notOk error) =
        ({ st with uploading := false },
          [.fetchUpload f, .consoleError (lit "Error uploading image:")],
          .error { message := jsOr error (lit "Upload failed") })) ∧
    (∀ m : JsString, m ≠ [] → jsOr (some m) (lit "Upload failed") = m) ∧
    jsOr none (lit "Upload failed") = lit "Upload failed" ∧
    jsOr (some []) (lit "Upload failed") = lit "Upload failed" := by
  refine ⟨fun _ => rfl, fun _ => rfl, ?_, rfl, rfl⟩
  intro m hm
  simp [jsOr, hm]

/-- C23 on a response with two links and on a refusal with the message
"disk full". -/
theorem uploadImage_result_witness :
    (uploadImage {} { name := lit "cat.png", type := lit "image/png", size := 2048 }
        (.ok [lit "https://img/1", lit "https://img/2"])).2.2 = .ok (some (lit "https://img/1")) ∧
    jsOr (some (lit "disk full")) (lit "Upload failed") = lit "disk full" :=
  ⟨congrArg (fun r => r.2.2)
     ((uploadImage_result {} { name := lit "cat.png", type := lit "image/png", size := 2048 }).1
       [lit "https://img/1", lit "https://img/2"]),
   (uploadImage_result {} { name := lit "cat.png", type := lit "image/png", size := 2048 }).2.2.1
     (lit "disk full") (by decide)⟩

/-! ### Accepting a call -/

/-- C24: with an incoming call held, `handleAcceptCall` makes that call the
active call, holds no incoming call any more and has no effect on the outside;
with no incoming call held it returns the state unchanged, without effect. -/
theorem accept_moves_incoming_to_active (st : ChatState) :
    (∀ call : IncomingCall, st.incomingCall = some call →
      handleAcceptCall st =
        ({ st with activeCall := some (.incoming call), incomingCall := none }, [])) ∧
    (st.incomingCall = none → handleAcceptCall st = (st, [])) := by
  constructor
  · intro call h
    simp [handleAcceptCall, h]
  · intro h
    simp [handleAcceptCall, h]

/-- C24 on a pending call from `p1`, and on a state without incoming call. -/
theorem accept_moves_incoming_to_active_witness :
    handleAcceptCall
        { incomingCall := some { id := lit "c1", participants := [lit "p1", lit "p2"],
                                 status := lit "pending", createdBy := lit "p1",
                                 endedAt := none } } =
      ({ activeCall := some (.incoming { id := lit "c1", participants := [lit "p1", lit "p2"],
                                         status := lit "pending", createdBy := lit "p1",
                                         endedAt := none }) }, []) ∧
    handleAcceptCall {} = ({}, []) :=
  ⟨(accept_moves_incoming_to_active _).1 _ rfl, (accept_moves_incoming_to_active {}).2 rfl⟩

/-! ### Messages without text -/

/-- A document whose `text` is absent or empty is delivered, wherever it
stands in the snapshot, with all its stored fields as they are, the text `''`
and the timestamp of its `createdAt`, and this for every cipher and key:
nothing is decrypted for it, not even by a cipher that throws on every
input. -/
theorem textless_message_passes_through (C : Cipher) (k : JsString) (st : ChatState)
    (before after : List MessageDoc) (d : MessageDoc)
    (hno : d.data.text = none ∨ d.data.text = some []) :
    onMessagesSnapshot C k st (before ++ d :: after) =
      .ok { st with
        messages := before.map (viewMessage C k) ++
          { id := d.id, data := d.data, text := [], timestamp := d.data.createdAt } ::
            after.map (viewMessage C k) } := by
  rw [onMessagesSnapshot_eq]
  rcases hno with h | h <;> simp [viewMessage, h]

/-- The textless case on a picked GIF, read through a cipher that tabulates nothing. -/
theorem textless_message_passes_through_witness :
    onMessagesSnapshot sampleAes (lit "k") {}
        ([] ++ { id := lit "m2",
                 data := MediaMessage.stored
                   { uid := lit "a", photoURL := none, displayName := none,
                     mediaType := lit "gifs", mediaUrl := lit "https://gif/1",
                     mediaWidth := 200, mediaHeight := 100 } (some 2000) } :: []) =
      .ok { messages := List.map (viewMessage sampleAes (lit "k")) [] ++
          { id := lit "m2",
            data := MediaMessage.stored
              { uid := lit "a", photoURL := none, displayName := none,
                mediaType := lit "gifs", mediaUrl := lit "https://gif/1",
                mediaWidth := 200, mediaHeight := 100 } (some 2000),
            text := [], timestamp := some 2000 } ::
            List.map (viewMessage sampleAes (lit "k")) [] } :=
  textless_message_passes_through sampleAes (lit "k") {} [] []
    { id := lit "m2",
      data := MediaMessage.stored
        { uid := lit "a", photoURL := none, displayName := none,
          mediaType := lit "gifs", mediaUrl := lit "https://gif/1",
          mediaWidth := 200, mediaHeight := 100 } (some 2000) } (Or.inl rfl)

/-! ### The expiry callback -/

/-- C27: a timer that is due fires, and when the room exists its callback
sets `typing` to null whatever the field holds; the other fields of the room
are kept. -/
theorem expiry_clears_any_typing (chatId localUid remoteUid : JsString) (serverTime : Nat)
    (w : TypingWorld) (r : RoomData) (id due t1 t2 : Nat)
    (hroom : w.room = some r) (htasks : w.tasks = []) (htimer : (id, due) ∈ w.timers)
    (hdue : due ≤ t1) :
    (typingRun chatId localUid remoteUid serverTime w
      [{ time := t1, action := .fire id }, { time := t2, action := .resume 0 }]).room =
      some { r with typing := none } := by
  have hany : w.timers.any (fun p => p.1 == id && decide (p.2 ≤ max w.now t1)) = true := by
    simp only [List.any_eq_true, Bool.and_eq_true, beq_iff_eq, decide_eq_true_eq]
    exact ⟨(id, due), htimer, rfl, le_trans hdue (le_max_right _ _)⟩
  have h1 : typingStep chatId localUid remoteUid serverTime w { time := t1, action := .fire id } =
      { w with now := max w.now t1, timers := clearTimeout id w.timers,
               tasks := w.tasks ++ [.expiryAfterGetDoc] } := by
    simp only [typingStep, fireTimer]
    rw [if_pos hany]
  simp only [typingRun, List.foldl_cons, List.foldl_nil, h1]
  simp [typingStep, htasks, resumeTask, hroom]

/-- C27 on a room where the remote user `b` is typing when the timer of the
local user `a` fires: the field is cleared. -/
theorem expiry_clears_any_typing_witness :
    (typingRun (lit "a_b") (lit "a") (lit "b") 1
      { room := some { participants := [lit "a", lit "b"], createdAt := some 1,
                       lastMessage := none, typing := some (lit "b") },
        timers := [(1, 2000)], typingTimeout := some 1, nextTimer := 2 }
      [{ time := 2000, action := .fire 1 }, { time := 2050, action := .resume 0 }]).room =
      some { participants := [lit "a", lit "b"], createdAt := some 1, lastMessage := none,
             typing := none } :=
  expiry_clears_any_typing (lit "a_b") (lit "a") (lit "b") 1
    { room := some { participants := [lit "a", lit "b"], createdAt := some 1,
                     lastMessage := none, typing := some (lit "b") },
      timers := [(1, 2000)], typingTimeout := some 1, nextTimer := 2 }
    { participants := [lit "a", lit "b"], createdAt := some 1, lastMessage := none,
      typing := some (lit "b") }
    1 2000 2000 2050 rfl rfl (by decide) (by decide)

/-! ### What the view displays -/

/-- C28: for a message that the view shows as text (no truthy media pair, no
truthy `imageUrl`), the list holds the decrypted text `s` of the stored
ciphertext, and the paragraph shows the result of decrypting `s` again (or
rendering throws): the stored ciphertext is decrypted twice. -/
theorem displayed_text_is_decrypted_again (C : Cipher) (k : JsString) (st : ChatState)
    (d : MessageDoc) (c s : JsString) (hc : d.data.text = some c) (hne : c ≠ [])
    (hdec : C.decrypt c k = .ok s)
    (hmedia : jsTruthy d.data.mediaType = none ∨ jsTruthy d.data.mediaUrl = none)
    (himg : jsTruthy d.data.imageUrl = none) :
    onMessagesSnapshot C k st [d] =
      .ok { st with
        messages := [{ id := d.id, data := d.data, text := s, timestamp := d.data.createdAt }] } ∧
    renderBubble C k { id := d.id, data := d.data, text := s, timestamp := d.data.createdAt } =
      (match C.decrypt s k with
       | .ok t => .ok (.text t)
       | .error e => .error e) := by
  constructor
  · rw [onMessagesSnapshot_eq]
    simp [viewMessage, hc, hne, hdec]
  · unfold renderBubble
    simp only [himg]
    rcases hmedia with h | h
    · rw [h]
    · rw [h]
      cases jsTruthy d.data.mediaType <;> rfl

/-- C28 on the message "hello" sent and read under the key "key": the list
holds "hello" and the paragraph shows "biil". -/
theorem displayed_text_is_decrypted_again_witness :
    renderBubble shiftCipher (lit "key")
        { id := lit "m1",
          data := TextMessage.stored
            { text := 7 :: lit "khoor", uid := lit "a", photoURL := none, displayName := none,
              imageUrl := some [] } (some 1000),
          text := lit "hello", timestamp := some 1000 } = .ok (.text (lit "biil")) ∧
    lit "biil" ≠ lit "hello" :=
  ⟨(displayed_text_is_decrypted_again shiftCipher (lit "key") {}
      { id := lit "m1",
        data := TextMessage.stored
          { text := 7 :: lit "khoor", uid := lit "a", photoURL := none, displayName := none,
            imageUrl := some [] } (some 1000) }
      (7 :: lit "khoor") (lit "hello") rfl (by decide) rfl (Or.inl rfl) rfl).2,
   by decide⟩

/-! ### The held incoming call -/

theorem onCallsSnapshot_last (X : JsString) (changes : List DocChange) :
    ∀ st : ChatState, onCallsSnapshot X st changes =
      (match (emittedCalls X changes).getLast? with
       | some r => { st with incomingCall := some r }
       | none => st) := by
  induction changes with
  | nil => intro st; rfl
  | cons c cs ih =>
    intro st
    have hstep : onCallsSnapshot X st (c :: cs) = onCallsSnapshot X (onCallChange X st c) cs := rfl
    rw [hstep, ih, emittedCalls_eq_filterMap, emittedCalls_eq_filterMap, List.filterMap_cons]
    unfold onCallChange
    cases hc : incomingCallOf X c with
    | none => rfl
    | some r0 =>
      simp only [List.getLast?_cons]
      cases (List.filterMap (incomingCallOf X) cs).getLast? <;> rfl

/-- C29: after a batch the held incoming call is the last record of the batch
that passes the filter, or the one held before when none passes; no other
cell of the view state changes, and the callback, a function of the state
alone, writes nothing to the store for the record it replaces. -/
theorem held_call_is_last_emitted (X : JsString) (st : ChatState) (changes : List DocChange) :
    onCallsSnapshot X st changes =
      (match (emittedCalls X changes).getLast? with
       | some r => { st with incomingCall := some r }
       | none => st) :=
  onCallsSnapshot_last X changes st

/-! ### Distinct conversations -/

theorem jsJoin_pair (x y : JsString) : jsJoin (lit "_") [x, y] = x ++ 95 :: y := by
  simp [jsJoin, lit_underscore]

/-- C30: for identifiers without underscore, equal room ids come from the same
unordered pair of users. -/
theorem chatRoomId_same_pair (a b c d : JsString) (ha : 95 ∉ a) (hb : 95 ∉ b) (hc : 95 ∉ c)
    (hd : 95 ∉ d) (h : chatRoomId a b = chatRoomId c d) :
    (a = c ∧ b = d) ∨ (a = d ∧ b = c) := by
  simp only [chatRoomId, jsSort_pair] at h
  by_cases h1 : strLt b a = true <;> by_cases h2 : strLt d c = true
  · simp only [h1, h2, if_true, jsJoin_pair] at h
    obtain ⟨e1, e2⟩ := split_at_underscore _ _ _ _ hb hd h
    exact Or.inl ⟨e2, e1⟩
  · simp only [h1, h2, if_true, if_false, Bool.false_eq_true, jsJoin_pair] at h
    obtain ⟨e1, e2⟩ := split_at_underscore _ _ _ _ hb hc h
    exact Or.inr ⟨e2, e1⟩
  · simp only [h1, h2, if_true, if_false, Bool.false_eq_true, jsJoin_pair] at h
    obtain ⟨e1, e2⟩ := split_at_underscore _ _ _ _ ha hd h
    exact Or.inr ⟨e1, e2⟩
  · simp only [h1, h2, if_false, Bool.false_eq_true, jsJoin_pair] at h
    obtain ⟨e1, e2⟩ := split_at_underscore _ _ _ _ ha hc h
    exact Or.inl ⟨e1, e2⟩

/-- C30 on the pairs (`bob`, `alice`) and (`alice`, `bob`). -/
theorem chatRoomId_same_pair_witness :
    chatRoomId (lit "bob") (lit "alice") = chatRoomId (lit "alice") (lit "bob") ∧
    ((lit "bob" = lit "alice" ∧ lit "alice" = lit "bob") ∨
      (lit "bob" = lit "bob" ∧ lit "alice" = lit "alice")) :=
  ⟨by decide,
   chatRoomId_same_pair (lit "bob") (lit "alice") (lit "alice") (lit "bob")
     (by decide) (by decide) (by decide) (by decide) (by decide)⟩

/-! ### The pending attachment in every reachable state -/

theorem viewStep_file_unchanged (C : Cipher) (k : JsString) (user : User) (uid : JsString)
    (st : ChatState) (ev : ViewEvent) (h : ev.touchesFile = false) :
    (viewStep C k user uid st ev).1.file = st.file ∧
    ∀ f, Effect.fetchUpload f ∉ (viewStep C k user uid st ev).2 := by
  cases ev with
  | fileChange files => simp [ViewEvent.touchesFile] at h
  | removeFile => simp [ViewEvent.touchesFile] at h
  | submit env => simp [ViewEvent.touchesFile] at h
  | input value => simp [viewStep]
  | roomResolved => simp [viewStep]
  | recipientLoaded => simp [viewStep]
  | messagesSnapshot docs => simp [viewStep, onMessagesSnapshot_eq]
  | typingSnapshot snapshot =>
    simp only [viewStep, onTypingSnapshot]
    split <;> simp
  | callsSnapshot changes =>
    simp only [viewStep, onCallsSnapshot_last]
    cases (emittedCalls user.uid changes).getLast? <;> simp
  | initiateCall now =>
    simp only [viewStep, initiateCall]
    cases st.recipient <;> simp
  | acceptCall =>
    simp only [viewStep, handleAcceptCall]
    cases st.incomingCall <;> simp
  | rejectCall now record =>
    simp only [viewStep, handleRejectCall]
    cases st.incomingCall <;> cases record <;> simp
  | endCall => simp [viewStep, handleEndCall]
  | mediaSelect media addDoc =>
    simp only [viewStep, handleMediaSelect]
    cases addDoc <;> simp

theorem viewStep_valid (C : Cipher) (k : JsString) (user : User) (uid : JsString)
    (st : ChatState) (ev : ViewEvent) (hst : ∀ f, st.file = some f → validAttachment f) :
    (∀ f, (viewStep C k user uid st ev).1.file = some f → validAttachment f) ∧
    ∀ f, Effect.fetchUpload f ∈ (viewStep C k user uid st ev).2 → validAttachment f := by
  by_cases h : ev.touchesFile = false
  · obtain ⟨h1, h2⟩ := viewStep_file_unchanged C k user uid st ev h
    exact ⟨fun f hf => hst f (h1 ▸ hf), fun f hf => absurd hf (h2 f)⟩
  · cases ev with
    | fileChange files => exact fileStep_valid C k user st (.fileChange files) hst
    | removeFile => exact fileStep_valid C k user st .removeFile hst
    | submit env => exact fileStep_valid C k user st (.submit env) hst
    | input value => exact absurd rfl h
    | roomResolved => exact absurd rfl h
    | recipientLoaded => exact absurd rfl h
    | messagesSnapshot docs => exact absurd rfl h
    | typingSnapshot snapshot => exact absurd rfl h
    | callsSnapshot changes => exact absurd rfl h
    | initiateCall now => exact absurd rfl h
    | acceptCall => exact absurd rfl h
    | rejectCall now record => exact absurd rfl h
    | endCall => exact absurd rfl h
    | mediaSelect media addDoc => exact absurd rfl h

theorem viewRun_valid (C : Cipher) (k : JsString) (user : User) (uid : JsString)
    (events : List ViewEvent) :
    ∀ st : ChatState, (∀ f, st.file = some f → validAttachment f) →
      (∀ f, (viewRun C k user uid st events).1.file = some f → validAttachment f) ∧
      ∀ f, Effect.fetchUpload f ∈ (viewRun C k user uid st events).2 → validAttachment f := by
  induction events with
  | nil =>
    intro st hst
    exact ⟨hst, fun f hf => by simp [viewRun] at hf⟩
  | cons ev rest ih =>
    intro st hst
    obtain ⟨h1, h2⟩ := viewStep_valid C k user uid st ev hst
    obtain ⟨h3, h4⟩ := ih _ h1
    refine ⟨h3, ?_⟩
    intro f hf
    simp only [viewRun, List.mem_append] at hf
    rcases hf with hf | hf
    · exact h2 f hf
    · exact h4 f hf

/-- C26: after any sequence of events from the initial state of the view the
pending attachment is absent or an image of at most 5 MiB, and every file the
view has uploaded is one; only a selection, the remove button and a send
touch the attachment, a send changing it only to `null` and only when the
store has confirmed the write; and a selection that is refused leaves the
whole state, the attachment accepted earlier included, as it was. -/
theorem pending_attachment_always_valid (C : Cipher) (k : JsString) (user : User)
    (uid : JsString) :
    (∀ events : List ViewEvent,
      (∀ f, (viewRun C k user uid {} events).1.file = some f → validAttachment f) ∧
      (∀ f, Effect.fetchUpload f ∈ (viewRun C k user uid {} events).2 → validAttachment f)) ∧
    (∀ (st : ChatState) (ev : ViewEvent), ev.touchesFile = false →
      (viewStep C k user uid st ev).1.file = st.file) ∧
    (∀ (st : ChatState) (env : SendEnv), (sendMessage C k user st env).1.file ≠ st.file →
      (sendMessage C k user st env).1.file = none ∧ ∃ id, env.addDoc = .ok id) ∧
    (∀ (st : ChatState) (f : FileObj) (rest : List FileObj), ¬ validAttachment f →
      (handleFileChange st (f :: rest)).1 = st) := by
  refine ⟨?_, ?_, ?_, ?_⟩
  · intro events
    exact viewRun_valid C k user uid events {} (by simp)
  · intro st ev h
    exact (viewStep_file_unchanged C k user uid st ev h).1
  · intro st env hne
    constructor
    · rcases (sendMessage_file C k user st env).1 with h | h
      · exact absurd h hne
      · exact h
    · cases ha : env.addDoc with
      | ok id => exact ⟨id, rfl⟩
      | error e =>
        exact absurd ((sendMessage_pending C k user st env).2 (Or.inr ⟨e, ha⟩)).2 hne
  · intro st f rest hf
    obtain ⟨msg, hmsg⟩ := handleFileChange_invalid st f rest hf
    rw [hmsg]

/-- C26 on a run that accepts a small image, refuses a 10 MiB one, receives a
calls batch and sends: the small image is still pending after the refusal and
is the file uploaded. -/
theorem pending_attachment_always_valid_witness :
    (viewRun shiftCipher (lit "key") { uid := lit "a", photoURL := none, displayName := none }
        (lit "b") {}
        [.fileChange [{ name := lit "cat.png", type := lit "image/png", size := 2048 }],
         .fileChange [{ name := lit "big.png", type := lit "image/png",
                        size := 10 * 1024 * 1024 }],
         .callsSnapshot []]).1.file =
      some { name := lit "cat.png", type := lit "image/png", size := 2048 } ∧
    validAttachment { name := lit "cat.png", type := lit "image/png", size := 2048 } ∧
    Effect.fetchUpload { name := lit "cat.png", type := lit "image/png", size := 2048 } ∈
      (viewRun shiftCipher (lit "key") { uid := lit "a", photoURL := none, displayName := none }
        (lit "b") {}
        [.fileChange [{ name := lit "cat.png", type := lit "image/png", size := 2048 }],
         .fileChange [{ name := lit "big.png", type := lit "image/png",
                        size := 10 * 1024 * 1024 }],
         .callsSnapshot [],
         .submit { upload := .ok [lit "u"], salt := 7, addDoc := .ok (lit "m1") }]).2 :=
  ⟨by decide,
   ((pending_attachment_always_valid shiftCipher (lit "key")
      { uid := lit "a", photoURL := none, displayName := none } (lit "b")).1
      [.fileChange [{ name := lit "cat.png", type := lit "image/png", size := 2048 }],
       .fileChange [{ name := lit "big.png", type := lit "image/png",
                      size := 10 * 1024 * 1024 }],
       .callsSnapshot []]).1 _ (by decide),
   by decide⟩

/-! ### Decryption faults that do not throw -/

/-- C7: when the decryption of a document of the batch returns a string
instead of throwing, as it does for a key mismatch, the callback does not
raise and the other documents are delivered as they are without it, but that
document carries the returned string: the placeholder is not substituted. -/
theorem silent_fault_keeps_decrypted_text (C : Cipher) (k : JsString) (st : ChatState)
    (before after : List MessageDoc) (d : MessageDoc) (c t : JsString)
    (hc : d.data.text = some c) (hne : c ≠ []) (hdec : C.decrypt c k = .ok t) :
    onMessagesSnapshot C k st (before ++ d :: after) =
      .ok { st with
        messages := before.map (viewMessage C k) ++
          { id := d.id, data := d.data, text := t, timestamp := d.data.createdAt } ::
            after.map (viewMessage C k) } := by
  rw [onMessagesSnapshot_eq]
  simp [viewMessage, hc, hne, hdec]

/-- C7 on a batch of a picked GIF followed by a ciphertext of "hello" written
under `your-secret-key`, read under `another-key`: both are delivered, the
second with the empty string as text, not the placeholder. -/
theorem silent_fault_keeps_decrypted_text_witness :
    onMessagesSnapshot sampleAes (lit "another-key") {}
        ([{ id := lit "m0",
            data := MediaMessage.stored
              { uid := lit "p2", photoURL := none, displayName := none,
                mediaType := lit "gifs", mediaUrl := lit "https://gif/1",
                mediaWidth := 200, mediaHeight := 100 } (some 500) }] ++
          { id := lit "m1",
            data := TextMessage.stored
              { text := sampleCiphertext, uid := lit "p1", photoURL := none,
                displayName := none, imageUrl := some [] } (some 1000) } :: []) =
      .ok { messages :=
        List.map (viewMessage sampleAes (lit "another-key"))
              [{ id := lit "m0",
                 data := MediaMessage.stored
                   { uid := lit "p2", photoURL := none, displayName := none,
                     mediaType := lit "gifs", mediaUrl := lit "https://gif/1",
                     mediaWidth := 200, mediaHeight := 100 } (some 500) }] ++
          { id := lit "m1",
            data := TextMessage.stored
              { text := sampleCiphertext, uid := lit "p1", photoURL := none,
                displayName := none, imageUrl := some [] } (some 1000),
            text := [], timestamp := some 1000 } ::
            List.map (viewMessage sampleAes (lit "another-key")) [] } ∧
    ([] : JsString) ≠ placeholder :=
  ⟨silent_fault_keeps_decrypted_text sampleAes (lit "another-key") {}
     [{ id := lit "m0",
        data := MediaMessage.stored
          { uid := lit "p2", photoURL := none, displayName := none,
            mediaType := lit "gifs", mediaUrl := lit "https://gif/1",
            mediaWidth := 200, mediaHeight := 100 } (some 500) }]
     []
     { id := lit "m1",
       data := TextMessage.stored
         { text := sampleCiphertext, uid := lit "p1", photoURL := none,
           displayName := none, imageUrl := some [] } (some 1000) }
     sampleCiphertext [] rfl (by decide) (by rfl),
   by decide⟩

/-! ### Image messages are decrypted -/

/-- C25, as stated, fails: an image-only message (empty text, one file) is
written by `sendMessage` with a non-empty ciphertext as `text`, and the
subscription decrypts it: under a cipher whose decryption throws, it is
delivered with the placeholder. -/
theorem image_message_is_decrypted :
    Effect.addMessage (lit "a_b")
        { text := [7], uid := lit "a", photoURL := none, displayName := none,
          imageUrl := some (lit "https://img/1") } ∈
      (sendMessage shiftCipher (lit "key") { uid := lit "a", photoURL := none, displayName := none }
        { formValue := [], chatId := lit "a_b",
          file := some { name := lit "cat.png", type := lit "image/png", size := 2048 } }
        { upload := .ok [lit "https://img/1"], salt := 7, addDoc := .ok (lit "m1") }).2 ∧
    onMessagesSnapshot faultyCipher (lit "key") {}
        [{ id := lit "m1",
           data := TextMessage.stored
             { text := [7], uid := lit "a", photoURL := none, displayName := none,
               imageUrl := some (lit "https://img/1") } (some 1000) }] =
      .ok { messages :=
        [{ id := lit "m1",
           data := TextMessage.stored
             { text := [7], uid := lit "a", photoURL := none, displayName := none,
               imageUrl := some (lit "https://img/1") } (some 1000),
           text := placeholder, timestamp := some 1000 }] } ∧
    onMessagesSnapshot shiftCipher (lit "key") {}
        [{ id := lit "m1",
           data := TextMessage.stored
             { text := [7], uid := lit "a", photoURL := none, displayName := none,
               imageUrl := some (lit "https://img/1") } (some 1000) }] =
      .ok { messages :=
        [{ id := lit "m1",
           data := TextMessage.stored
             { text := [7], uid := lit "a", photoURL := none, displayName := none,
               imageUrl := some (lit "https://img/1") } (some 1000),
           text := [], timestamp := some 1000 }] } :=
  ⟨by decide, by rfl, by rfl⟩

/-- C25, amended: every document is delivered with all its stored fields as
they are and the timestamp of its `createdAt`, whatever its payload. No
decryption is attempted exactly for a document whose `text` is absent or
empty (a picked-media message): its text is `''` under every cipher. A
document with a non-empty `text`, as every message `sendMessage` writes, image
messages included, is decrypted: its text is the decrypted string, or the
placeholder after a throw. -/
theorem stored_fields_pass_through (C : Cipher) (k : JsString) (st : ChatState)
    (before after : List MessageDoc) (d : MessageDoc) :
    (∃ t : JsString,
      onMessagesSnapshot C k st (before ++ d :: after) =
        .ok { st with
          messages := before.map (viewMessage C k) ++
            { id := d.id, data := d.data, text := t, timestamp := d.data.createdAt } ::
              after.map (viewMessage C k) } ∧
      ((d.data.text = none ∨ d.data.text = some []) → t = []) ∧
      (∀ c, d.data.text = some c → c ≠ [] →
        (∀ s, C.decrypt c k = .ok s → t = s) ∧
        (∀ e, C.decrypt c k = .error e → t = placeholder))) ∧
    (∀ (env : SendEnv) (user : User) (st0 : ChatState) (cid : JsString) (p : TextMessage)
        (ts : Option Nat), C.RoundTrip →
      Effect.addMessage cid p ∈ (sendMessage C k user st0 env).2 →
        ∃ c, (p.stored ts).text = some c ∧ c ≠ []) := by
  constructor
  · refine ⟨(viewMessage C k d).text, ?_, ?_, ?_⟩
    · rw [onMessagesSnapshot_eq]
      simp [viewMessage]
    · intro hno
      rcases hno with h | h <;> simp [viewMessage, h]
    · intro c hc hne
      constructor
      · intro s hs
        simp [viewMessage, hc, hne, hs]
      · intro e he
        simp [viewMessage, hc, hne, he]
  · intro env user st0 cid p ts hC hmem
    obtain ⟨_, henc, _⟩ := addMessage_mem_sendMessage hmem
    exact ⟨p.text, rfl, (hC _ _ _ _ henc).1⟩

/-- C25, amended, on a picked GIF read through a cipher that always throws:
its text is `''` and its stored fields are delivered as they are. -/
theorem stored_fields_pass_through_witness :
    ∃ t : JsString,
      onMessagesSnapshot faultyCipher (lit "k") {}
          ([] ++ { id := lit "m2",
                   data := MediaMessage.stored
                     { uid := lit "a", photoURL := none, displayName := none,
                       mediaType := lit "gifs", mediaUrl := lit "https://gif/1",
                       mediaWidth := 200, mediaHeight := 100 } (some 2000) } :: []) =
        .ok { messages := List.map (viewMessage faultyCipher (lit "k")) [] ++
            { id := lit "m2",
              data := MediaMessage.stored
                { uid := lit "a", photoURL := none, displayName := none,
                  mediaType := lit "gifs", mediaUrl := lit "https://gif/1",
                  mediaWidth := 200, mediaHeight := 100 } (some 2000),
              text := t, timestamp := some 2000 } ::
              List.map (viewMessage faultyCipher (lit "k")) [] } ∧
      t = [] := by
  obtain ⟨t, h1, h2, _⟩ := (stored_fields_pass_through faultyCipher (lit "k") {} [] []
    { id := lit "m2",
      data := MediaMessage.stored
        { uid := lit "a", photoURL := none, displayName := none,
          mediaType := lit "gifs", mediaUrl := lit "https://gif/1",
          mediaWidth := 200, mediaHeight := 100 } (some 2000) }).1
  exact ⟨t, h1, h2 (Or.inl rfl)⟩

end NotReddit
